import Mathlib

/-!
# SecureAgent-Box: browser-side workflow

A shallow embedding of `app/static/js/base.js` and `app/static/js/upload.js`.
Every function is a pure Lean function over explicit state: the document is a
list of elements, a promise chain is a function of the way the request ended,
and the effects of a handler (notifications, requests, timers) are recorded in
the order the handler performs them.
-/

namespace SecureAgentBox

/-! ## JavaScript values -/

/-- A value read from a parsed JSON body or a DOM property. `num` holds an
integer-valued number below 10^21 in magnitude (its text is then the decimal
numeral); `obj` is an object or array, held by the text `String(v)` gives. -/
inductive JsVal where
  | undefined
  | null
  | bool (b : Bool)
  | num (n : Int)
  | str (s : String)
  | obj (text : String)
  deriving DecidableEq, Repr

namespace JsVal

/-- ToBoolean: the test made by `if (v)`, `!v` and `v || w`. -/
def truthy : JsVal → Bool
  | undefined => false
  | null => false
  | bool b => b
  | num n => n != 0
  | str s => s != ""
  | obj _ => true

/-- ToString: applied by string concatenation, template literals and
`new Error(v)`. -/
def toStr : JsVal → String
  | undefined => "undefined"
  | null => "null"
  | bool true => "true"
  | bool false => "false"
  | num n => toString n
  | str s => s
  | obj text => text

/-- The operator `v || w`. -/
def or (v w : JsVal) : JsVal := if v.truthy then v else w

end JsVal

/-- The message of the TypeError thrown by reading property `prop` of `base`
(`null` or `undefined`); the wording is the engine's and nothing below depends
on it. -/
def readMessage (base prop : String) : String :=
  "Cannot read properties of " ++ base ++ " (reading " ++ prop ++ ")"

/-- The message of the TypeError thrown by reading a property of `null`. -/
def nullReadMessage (prop : String) : String := readMessage "null" prop

/-- A notification handed to `NotificationSystem.show` / `showNotification`:
the message and the type (or class name) it is styled by. -/
structure Notification where
  message : JsVal
  type : String
  deriving DecidableEq, Repr

/-! ## base.js: ProcessManager -/

/-- The object returned by `validatePID`. -/
structure Validation where
  isValid : Bool
  error : Option String
  deriving DecidableEq, Repr

/-- The test `/^\d+$/.test(pid)`: at least one character, all ASCII digits. -/
def allDigits (pid : String) : Bool :=
  !pid.data.isEmpty && pid.data.all (fun c => decide (0x30 ≤ c.toNat ∧ c.toNat ≤ 0x39))

/-- The value `parseInt(pid)` of a string of ASCII digits (radix ten). The
result is a double, compared with zero only, and rounding keeps a non-zero
integer non-zero, so the natural number stands for it. -/
def parseInt (pid : String) : Nat :=
  pid.data.foldl (fun n c => 10 * n + (c.toNat - 0x30)) 0

/-- `ProcessManager.validatePID(pid)`. -/
def validatePID (pid : String) : Validation :=
  if pid = "" then
    { isValid := false, error := some "Please enter a process ID" }
  else if !allDigits pid then
    { isValid := false, error := some "PID must be a positive number" }
  else if parseInt pid ≤ 0 then
    { isValid := false, error := some "PID must be greater than 0" }
  else
    { isValid := true, error := none }

/-- A parsed JSON body as the validation handler reads it: the parse may fail
(`response.json()` rejects with the engine message), give `null`, or give a
value whose `error` property is read. -/
inductive ErrorBody where
  | notJson (message : String)
  | null
  | value (error : JsVal)
  deriving DecidableEq, Repr

/-- The way `fetch('/validate/' + pid)` ends: it rejects, or it resolves with
an HTTP status and a body. -/
inductive ValidateResult where
  | networkError (message : String)
  | response (status : Nat) (body : ErrorBody)
  deriving DecidableEq, Repr

/-- `response.ok`: the status is in 200..299. -/
def statusOk (status : Nat) : Bool := decide (200 ≤ status ∧ status ≤ 299)

/-- `ProcessManager.getErrorMessage(status, pid, data)` for a parsed body
`data`; reading `data.error` of `null` throws. -/
def getErrorMessage (status : Nat) (pid : String) (data : Option JsVal) : Except String JsVal :=
  if status = 404 then
    .ok (.str ("Process ID " ++ pid ++ " not found. Please verify the PID and try again."))
  else if status = 403 then
    .ok (.str ("Access denied to process " ++ pid ++ ". Please check permissions."))
  else
    match data with
    | none => .error (nullReadMessage "error")
    | some error => .ok (error.or (.str "Unknown error occurred"))

/-- The `message` of `new Error(v)`: empty for `undefined`, else `String(v)`. -/
def errorMessage (v : JsVal) : String :=
  if v = .undefined then "" else v.toStr

/-- What one call of `ProcessManager.startAnalysis` does, in order. -/
structure PidRun where
  requests : List String
  notifications : List Notification
  location : Option String
  modalHidden : Bool
  deriving DecidableEq, Repr

/-- The body of the `try` block of `ProcessManager.startAnalysis` after the
request was sent: the message thrown, or success. -/
def validateOutcome (pid : String) : ValidateResult → Except String Unit
  | .networkError message => .error message
  | .response status body =>
    if !statusOk status then
      match body with
      | .notJson message => .error message
      | .null =>
        match getErrorMessage status pid none with
        | .ok v => .error (errorMessage v)
        | .error message => .error message
      | .value error =>
        match getErrorMessage status pid (some error) with
        | .ok v => .error (errorMessage v)
        | .error message => .error message
    else .ok ()

/-- `ProcessManager.startAnalysis()` with `pid` the value of the `processId`
field and `net` the way the validation request ends if it is sent. (A page
without the field reads `undefined`, which `validatePID` rejects on its first
test like the empty string. The text and the `disabled` flag of the submit
button, set before the request and reset in `finally`, are left out.) -/
def pidStartAnalysis (pid : String) (net : ValidateResult) : PidRun :=
  let validation := validatePID pid
  if !validation.isValid then
    { requests := [],
      notifications := [⟨(validation.error.map JsVal.str).getD .undefined, "bg-red-500"⟩],
      location := none, modalHidden := false }
  else
    match validateOutcome pid net with
    | .ok () =>
      { requests := ["/validate/" ++ pid],
        notifications := [⟨.str ("Starting analysis of process " ++ pid ++ "..."), "bg-green-500"⟩],
        location := some ("/analyze/dynamic/" ++ pid), modalHidden := true }
    | .error message =>
      { requests := ["/validate/" ++ pid], notifications := [⟨.str message, "bg-red-500"⟩],
        location := none, modalHidden := false }

/-! ## base.js: CleanupSystem -/

/-- The `details` object of a cleanup response: three counters and the
`errors` array of message lines, which a response may leave out. -/
structure CleanupDetails where
  uploads_cleaned : Nat
  analysis_cleaned : Nat
  result_cleaned : Nat
  errors : Option (List String)
  deriving DecidableEq, Repr

/-- A (non-null) cleanup response as `formatResponse` reads it. -/
structure CleanupResponse where
  status : JsVal
  details : Option CleanupDetails
  message : JsVal
  error : JsVal
  deriving DecidableEq, Repr

/-- The object returned by `formatResponse`. -/
structure CleanupReport where
  message : String
  className : String
  deriving DecidableEq, Repr

/-- The four counter lines shared by the success and the warning message. -/
def counterText (d : CleanupDetails) : String :=
  "- " ++ toString d.uploads_cleaned ++ " uploaded files removed\n- "
    ++ toString d.analysis_cleaned ++ " analysis results cleaned (PE-Sieve, HolyGrail)\n- "
    ++ toString d.result_cleaned ++ " result folders cleaned\n- Doppelganger database cleaned"

/-- `errors.join('\n')`. -/
def joinLines (errors : List String) : String :=
  String.mk ((['\n'] : List Char).intercalate (errors.map String.data))

/-- `CleanupSystem.formatResponse(data)`; reading a property of a missing
`details` or calling `join` on a missing `errors` throws a TypeError. -/
def formatResponse (data : CleanupResponse) : Except String CleanupReport :=
  if data.status = .str "success" then
    match data.details with
    | none => .error (readMessage "undefined" "uploads_cleaned")
    | some d => .ok { message := "Cleanup successful:\n" ++ counterText d, className := "bg-green-500" }
  else if data.status = .str "warning" then
    match data.details with
    | none => .error (readMessage "undefined" "uploads_cleaned")
    | some d =>
      match d.errors with
      | none => .error (readMessage "undefined" "join")
      | some errors =>
        .ok { message := "Cleanup completed with warnings:\n" ++ counterText d ++ "\n\nErrors:\n"
                ++ joinLines errors,
              className := "bg-yellow-500" }
  else
    .ok { message := "Cleanup failed: " ++ (data.message.or data.error).toStr,
          className := "bg-red-500" }

/-- The notification `CleanupSystem.execute` shows for a parsed response. -/
def cleanupNotification (data : CleanupResponse) : Notification :=
  match formatResponse data with
  | .ok r => ⟨.str r.message, r.className⟩
  | .error message => ⟨.str ("Error during cleanup: " ++ message), "bg-red-500"⟩

/-- The lines of a text: the pieces between line feeds. -/
def linesOf (text : String) : List String :=
  (text.data.splitOn '\n').map String.mk

/-! ## base.js: StatusManager -/

/-- An element of the document, with the attributes and style properties the
status manager reads or writes. An unset style property is the empty string. -/
structure Element where
  tag : String
  id : String
  classes : List String
  inStatusBadge : Bool
  href : Option String
  title : Option String
  disabled : Bool
  pointerEvents : String
  opacity : String
  cursor : String
  deriving DecidableEq, Repr

/-- The selector `.nav-link`. -/
def isNavLink (e : Element) : Bool := e.classes.contains "nav-link"

/-- The selector `.action-btn`. -/
def isActionBtn (e : Element) : Bool := e.classes.contains "action-btn"

/-- The selector `button:not(.status-badge button)`. -/
def isPlainButton (e : Element) : Bool := e.tag == "button" && !e.inStatusBadge

/-- The selector `.offline-banner`. -/
def isOfflineBanner (e : Element) : Bool := e.classes.contains "offline-banner"

/-- The test `link.getAttribute('href')?.includes('/')`, `undefined` (no
`href`) read as false. -/
def hrefIncludesSlash (e : Element) : Bool :=
  match e.href with
  | none => false
  | some h => h.data.contains '/'

/-- Apply `f` to the element `document.getElementById(id)` finds: the first
one with that id, if any. -/
def updateById (id : String) (f : Element → Element) : List Element → List Element
  | [] => []
  | e :: es => if e.id = id then f e :: es else e :: updateById id f es

/-- The element `showOfflineBanner` creates. -/
def offlineBanner : Element :=
  { tag := "div", id := "",
    classes := ["offline-banner", "fixed", "top-0", "left-0", "right-0", "bg-red-500",
      "text-white", "text-center", "py-2", "z-50"],
    inStatusBadge := false, href := none, title := none, disabled := false,
    pointerEvents := "", opacity := "", cursor := "" }

/-- `StatusManager.showOfflineBanner()`: `document.body.prepend(banner)`. -/
def showOfflineBanner (doc : List Element) : List Element := offlineBanner :: doc

/-- `StatusManager.enableAllFunctionality()`, pass by pass. -/
def enableAllFunctionality (doc : List Element) : List Element :=
  let doc := doc.map fun link =>
    if isNavLink link then { link with pointerEvents := "auto", opacity := "1", title := none }
    else link
  let doc := doc.map fun btn =>
    if isActionBtn btn then { btn with disabled := false, opacity := "1", cursor := "pointer" }
    else btn
  let doc := updateById "dropZone" (fun z => { z with pointerEvents := "auto", opacity := "1" }) doc
  doc.map fun btn =>
    if isPlainButton btn && !btn.classes.contains "keep-disabled" then
      { btn with disabled := false, opacity := "1" }
    else btn

/-- `StatusManager.disableAllFunctionality()`, pass by pass. -/
def disableAllFunctionality (doc : List Element) : List Element :=
  let doc := doc.map fun link =>
    if isNavLink link && !hrefIncludesSlash link then
      { link with pointerEvents := "none", opacity := "0.5", title := some "System is offline" }
    else link
  let doc := doc.map fun btn =>
    if isActionBtn btn then
      { btn with disabled := true, opacity := "0.5", cursor := "not-allowed",
                 title := some "System is offline" }
    else btn
  let doc := updateById "dropZone" (fun z => { z with pointerEvents := "none", opacity := "0.5" }) doc
  let doc := doc.map fun btn =>
    if isPlainButton btn then
      { btn with disabled := true, opacity := "0.5", cursor := "not-allowed",
                 title := some "System is offline" }
    else btn
  if !doc.any isOfflineBanner then showOfflineBanner doc else doc

/-- The three states the health indicator shows. -/
inductive HealthState where
  | online
  | degraded
  | offline
  deriving DecidableEq, Repr

/-- The status indicator (`#status-indicator` with `#status-text`). -/
structure Indicator where
  className : String
  text : String
  color : String
  deriving DecidableEq, Repr

/-- The status manager with the document it acts on; `indicator` is `none`
on a page without the indicator elements. -/
structure StatusManager where
  isOnline : Bool
  indicator : Option Indicator
  doc : List Element
  deriving DecidableEq, Repr

/-- `StatusManager.setOnlineState()`. -/
def setOnlineState (m : StatusManager) : StatusManager :=
  { isOnline := true,
    indicator := m.indicator.map fun _ => ⟨"status-dot online", "Online", "#10b981"⟩,
    doc := enableAllFunctionality m.doc }

/-- `StatusManager.setDegradedState()`. -/
def setDegradedState (m : StatusManager) : StatusManager :=
  { isOnline := true,
    indicator := m.indicator.map fun _ => ⟨"status-dot degraded", "Degraded", "#f59e0b"⟩,
    doc := enableAllFunctionality m.doc }

/-- `StatusManager.setOfflineState()`. -/
def setOfflineState (m : StatusManager) : StatusManager :=
  { isOnline := false,
    indicator := m.indicator.map fun _ => ⟨"status-dot offline", "Offline", "#ef4444"⟩,
    doc := disableAllFunctionality m.doc }

/-- The way one health probe ends: `fetch` rejects, the body is not JSON
(`response.json()` rejects), the body is `null`, or the body is a value whose
`status` property is read. -/
inductive ProbeResult where
  | networkFailure
  | notJson
  | nullBody
  | body (status : JsVal)
  deriving DecidableEq, Repr

/-- The branch `checkStatus` takes: everything thrown inside the `try` block
reaches the `catch`. -/
def probeState : ProbeResult → HealthState
  | .networkFailure => .offline
  | .notJson => .offline
  | .nullBody => .offline
  | .body status => if status = .str "ok" then .online else .degraded

/-- `StatusManager.checkStatus()` for a probe that ends as `r`. -/
def checkStatus (m : StatusManager) (r : ProbeResult) : StatusManager :=
  match r with
  | .networkFailure => setOfflineState m
  | .notJson => setOfflineState m
  | .nullBody => setOfflineState m
  | .body status => if status = .str "ok" then setOnlineState m else setDegradedState m

/-- The state a run of probes, completing in this order, leaves. -/
def runProbes (m : StatusManager) (rs : List ProbeResult) : StatusManager :=
  rs.foldl checkStatus m

/-- The number of `.offline-banner` elements in the document. -/
def bannerCount (doc : List Element) : Nat := doc.countP isOfflineBanner

/-- The status manager right after construction on a document. -/
def StatusManager.initial (indicator : Option Indicator) (doc : List Element) : StatusManager :=
  { isOnline := false, indicator := indicator, doc := doc }

/-! ## upload.js: file size and type -/

/-- The table `sizes` of `formatFileSize`. -/
def sizes : List String := ["Bytes", "KB", "MB", "GB"]

/-- The integer `Math.floor(Math.log(n) / Math.log(k))` for `n > 0`, taken as
the exact floor of the logarithm: the number of times `n` can be divided by
`k` before it drops below `k` (`fuel` bounds the divisions; `n` itself is
enough). The quotient of doubles has this floor while it stays further from
an integer than its rounding error, as it does for sizes up to 1024^4. -/
def floorLog (k : Nat) : Nat → Nat → Nat
  | 0, _ => 0
  | fuel + 1, n => if n < k then 0 else floorLog k fuel (n / k) + 1

/-- The index `i` of `formatFileSize`. -/
def unitIndex (bytes : Nat) : Nat := floorLog 1024 bytes bytes

/-- The digits `(bytes / Math.pow(k, i)).toFixed(2)` prints, as a number of
hundredths: the quotient is exact in binary (a division by a power of two) and
`toFixed` rounds it to the nearest hundredth, a tie upwards. -/
def hundredths (bytes i : Nat) : Nat := (200 * bytes + 1024 ^ i) / (2 * 1024 ^ i)

/-- The text of `parseFloat(h / 100 written with two decimals)`: the number
with its trailing zeros dropped. -/
def numberText (h : Nat) : String :=
  if h % 100 = 0 then toString (h / 100)
  else if h % 10 = 0 then toString (h / 100) ++ "." ++ toString (h % 100 / 10)
  else if h % 100 < 10 then toString (h / 100) ++ ".0" ++ toString (h % 100)
  else toString (h / 100) ++ "." ++ toString (h % 100)

/-- `formatFileSize(bytes)` for a size in bytes; `sizes[i]` past the table is
`undefined`. -/
def formatFileSize (bytes : Nat) : String :=
  if bytes = 0 then "0 Bytes"
  else
    let i := unitIndex bytes
    numberText (hundredths bytes i) ++ " " ++ (sizes.get? i).getD "undefined"

/-- `String.prototype.toUpperCase` on ASCII text (letters outside ASCII are
left as they are here). -/
def toUpperCase (s : String) : String := String.mk (s.data.map Char.toUpper)

/-! ## upload.js: the argument list and the request body -/

/-- The characters `\s` and `trim()` treat as white space. -/
def isJsSpace (c : Char) : Bool :=
  [0x9, 0xA, 0xB, 0xC, 0xD, 0x20, 0xA0, 0x1680, 0x2028, 0x2029, 0x202F, 0x205F, 0x3000,
    0xFEFF].contains c.toNat || (0x2000 ≤ c.toNat && c.toNat ≤ 0x200A)

/-- `String.prototype.trim`. -/
def jsTrim (s : List Char) : List Char :=
  ((s.dropWhile isJsSpace).reverse.dropWhile isJsSpace).reverse

/-- The scan of `split(/\s+/)`: `piece` holds the current piece reversed and
`inSep` says that the last character read belongs to a separator match, which
a further white-space character extends. -/
def splitScan : Bool → List Char → List Char → List (List Char)
  | _, piece, [] => [piece.reverse]
  | inSep, piece, c :: cs =>
    if isJsSpace c then
      if inSep then splitScan true piece cs
      else piece.reverse :: splitScan true [] cs
    else splitScan false (c :: piece) cs

/-- `s.split(/\s+/)`. -/
def splitSpaces (s : List Char) : List (List Char) := splitScan false [] s

/-- The list `args` built by `selectAnalysisType(type)`; `field` is the value
of the `analysisArgs` input, `none` on a page without it. -/
def analysisArgs (type : String) (field : Option String) : List String :=
  if type = "dynamic" then
    match field with
    | none => []
    | some value =>
      if !(jsTrim value.data).isEmpty then (splitSpaces (jsTrim value.data)).map String.mk
      else []
  else []

/-- A hexadecimal digit in lower case. -/
def hexDigit (n : Nat) : Char := if n < 10 then Char.ofNat (0x30 + n) else Char.ofNat (0x57 + n)

/-- The characters `JSON.stringify` writes for one character of a string. -/
def jsonEscape (c : Char) : List Char :=
  if c = '"' then ['\\', '"']
  else if c = '\\' then ['\\', '\\']
  else if c.toNat = 0x8 then ['\\', 'b']
  else if c.toNat = 0xC then ['\\', 'f']
  else if c.toNat = 0xA then ['\\', 'n']
  else if c.toNat = 0xD then ['\\', 'r']
  else if c.toNat = 0x9 then ['\\', 't']
  else if c.toNat < 0x20 then ['\\', 'u', '0', '0', hexDigit (c.toNat / 16), hexDigit (c.toNat % 16)]
  else [c]

/-- `JSON.stringify(s)` for a string. -/
def jsonString (s : String) : String :=
  String.mk ('"' :: (s.data.flatMap jsonEscape ++ ['"']))

/-- The object `requestBody` of `startAnalysis`: with or without `args`. -/
inductive RequestBody where
  | empty
  | withArgs (args : List String)
  deriving DecidableEq, Repr

/-- The expression `args.length > 0 ? { args: args } : {}`. -/
def requestBody (args : List String) : RequestBody :=
  if args.length > 0 then .withArgs args else .empty

/-- `JSON.stringify(requestBody)`. -/
def stringifyBody : RequestBody → String
  | .empty => "\x7b\x7d"
  | .withArgs args => "\x7b\"args\":[" ++ ",".intercalate (args.map jsonString) ++ "]\x7d"

/-- The maximal runs of characters that are not white space, in order: the
text cut at every white-space character, the empty pieces left out. -/
def nonSpaceRuns (t : List Char) : List (List Char) :=
  (t.splitOnP isJsSpace).filter fun piece => !piece.isEmpty

/-! ## upload.js: the upload page -/

/-- The `file_info` object of an upload response (`size` is a count of bytes). -/
structure FileInfo where
  original_name : JsVal
  size : Nat
  extension : JsVal
  md5 : JsVal
  sha256 : JsVal
  deriving DecidableEq, Repr

/-- The way the upload request ends: `fetch` rejects, the body is not JSON,
it is `null`, or it is a value with its `error` and `file_info` properties
(`file_info` is `none` when missing or `null`). -/
inductive UploadResult where
  | networkError (message : String)
  | notJson (message : String)
  | nullBody
  | body (error : JsVal) (file_info : Option FileInfo)
  deriving DecidableEq, Repr

/-- The way an analysis request ends, with the `error` and `status`
properties of a parsed body. -/
inductive AnalysisResult where
  | networkError (message : String)
  | notJson (message : String)
  | nullBody
  | body (error : JsVal) (status : JsVal)
  deriving DecidableEq, Repr

/-- What the page does that is seen from outside, recorded in order. -/
inductive Effect where
  | notify (n : Notification)
  | upload
  | analyze (url : String) (body : String)
  | showModal (type : String)
  | hideModal (removed : Bool)
  | setTimer (type : String)
  | navigate (url : String)
  deriving DecidableEq, Repr

/-- The upload page: the two globals of `upload.js`, the elements its
handlers write (an optional element is `none` when the page lacks it), the
number of `#analyzingModal` elements, the number of analysis requests not yet
answered, and the effects so far. -/
structure Page where
  currentFileHash : JsVal
  currentFileExtension : JsVal
  uploadAreaDisplay : String
  analysisAreaHidden : Bool
  fileName : Option JsVal
  fileSize : Option String
  fileType : Option String
  md5Hash : Option JsVal
  sha256Hash : Option JsVal
  step1Completed : Option Bool
  step2Active : Option Bool
  analysisArgs : Option String
  modals : Nat
  inFlight : Nat
  effects : List Effect
  deriving DecidableEq, Repr

/-- `showNotification(message, type)`. -/
def Page.notify (p : Page) (message : JsVal) (type : String) : Page :=
  { p with effects := p.effects ++ [.notify ⟨message, type⟩] }

/-- The notifications shown so far. -/
def Page.notifications (p : Page) : List Notification :=
  p.effects.filterMap fun e => match e with
    | .notify n => some n
    | _ => none

/-- The analysis requests sent so far. -/
def Page.requests (p : Page) : List (String × String) :=
  p.effects.filterMap fun e => match e with
    | .analyze url body => some (url, body)
    | _ => none

/-- The redirect timers set so far. -/
def Page.timers (p : Page) : List String :=
  p.effects.filterMap fun e => match e with
    | .setTimer type => some type
    | _ => none

/-- `handleFile(file)` up to the request. -/
def handleFile (p : Page) : Page :=
  { p with effects := p.effects ++ [.notify ⟨.str "Uploading file...", "info"⟩, .upload] }

/-- `updateProgress()`. -/
def updateProgress (p : Page) : Page :=
  { p with step1Completed := p.step1Completed.map fun _ => true,
           step2Active := p.step2Active.map fun _ => true }

/-- The message of the TypeError thrown by `v.toUpperCase()` for a value that
is not a string. -/
def upperCaseThrow : JsVal → String
  | .undefined => readMessage "undefined" "toUpperCase"
  | .null => readMessage "null" "toUpperCase"
  | _ => "fileInfo.extension.toUpperCase is not a function"

/-- `displayFileInfo(fileInfo)`: the page it leaves and the message of the
TypeError it throws, if any. `toUpperCase` exists on strings only, and the
statements after the throw do not run. -/
def displayFileInfo (p : Page) (fi : FileInfo) : Page × Option String :=
  let p := { p with fileName := p.fileName.map fun _ => fi.original_name }
  let p := { p with fileSize := p.fileSize.map fun _ => formatFileSize fi.size }
  match p.fileType, fi.extension with
  | some _, .str ext =>
    ({ p with fileType := some (toUpperCase ext),
              md5Hash := p.md5Hash.map fun _ => fi.md5,
              sha256Hash := p.sha256Hash.map fun _ => fi.sha256 }, none)
  | some _, v => (p, some (upperCaseThrow v))
  | none, _ =>
    ({ p with md5Hash := p.md5Hash.map fun _ => fi.md5,
              sha256Hash := p.sha256Hash.map fun _ => fi.sha256 }, none)

/-- The `catch` handler of the upload chain. -/
def uploadFailed (p : Page) (message : String) : Page :=
  p.notify (.str ("Upload failed: " ++ message)) "error"

/-- The `then` / `catch` chain of `handleFile` for a request that ends as `r`.
(The timer that fades the analysis view in after 50 ms is left out.) -/
def uploadDone (p : Page) : UploadResult → Page
  | .networkError message => uploadFailed p message
  | .notJson message => uploadFailed p message
  | .nullBody => uploadFailed p (nullReadMessage "error")
  | .body error file_info =>
    if error.truthy then p.notify error "error"
    else
      let p := p.notify (.str "File uploaded successfully!") "success"
      match file_info with
      | none => uploadFailed p (readMessage "undefined" "md5")
      | some fi =>
        let p := { p with currentFileHash := fi.md5, currentFileExtension := fi.extension }
        let p := updateProgress p
        match displayFileInfo p fi with
        | (p, some message) => uploadFailed p message
        | (p, none) => { p with uploadAreaDisplay := "none", analysisAreaHidden := false }

/-- `showAnalyzingModal(type)`: one more `#analyzingModal` in the body. -/
def showAnalyzingModal (p : Page) (type : String) : Page :=
  { p with modals := p.modals + 1, effects := p.effects ++ [.showModal type] }

/-- `hideAnalyzingModal()`: removes the first `#analyzingModal`, if any. -/
def hideAnalyzingModal (p : Page) : Page :=
  if p.modals > 0 then { p with modals := p.modals - 1, effects := p.effects ++ [.hideModal true] }
  else { p with effects := p.effects ++ [.hideModal false] }

/-- `startAnalysis(type, args)` up to the request. -/
def startAnalysis (p : Page) (type : String) (args : List String) : Page :=
  if !p.currentFileHash.truthy then p.notify (.str "No file uploaded") "error"
  else
    let p := showAnalyzingModal p type
    { p with inFlight := p.inFlight + 1,
             effects := p.effects ++ [.analyze ("/analyze/" ++ type ++ "/" ++ p.currentFileHash.toStr)
               (stringifyBody (requestBody args))] }

/-- `selectAnalysisType(type)`. -/
def selectAnalysisType (p : Page) (type : String) : Page :=
  startAnalysis p type (analysisArgs type p.analysisArgs)

/-- The `then` / `catch` chain of `startAnalysis(type, _)` for a request that
ends as `r`. A `null` body makes the `then` handler throw after it has hidden
the modal, and the `catch` handler hides again. -/
def analysisDone (p : Page) (type : String) (r : AnalysisResult) : Page :=
  let p := { p with inFlight := p.inFlight - 1 }
  match r with
  | .networkError message =>
    (hideAnalyzingModal p).notify (.str ("Analysis failed: " ++ message)) "error"
  | .notJson message =>
    (hideAnalyzingModal p).notify (.str ("Analysis failed: " ++ message)) "error"
  | .nullBody =>
    (hideAnalyzingModal (hideAnalyzingModal p)).notify
      (.str ("Analysis failed: " ++ nullReadMessage "error")) "error"
  | .body error status =>
    let p := hideAnalyzingModal p
    if error.truthy then p.notify error "error"
    else if status = .str "success" then
      let p := p.notify (.str "Analysis completed successfully!") "success"
      { p with effects := p.effects ++ [.setTimer type] }
    else if status = .str "early_termination" then
      p.notify (.str ("Process terminated early: " ++ error.toStr)) "error"
    else p.notify (.str "Analysis failed") "error"

/-- The callback of the redirect timer set for `type`. -/
def redirect (p : Page) (type : String) : Page :=
  { p with effects := p.effects ++
      [.navigate ("/results/" ++ p.currentFileHash.toStr ++ "/" ++ type)] }

/-- What can happen on the upload page. An analysis request can only end
while one is on its way. -/
inductive Event where
  | handleFile
  | uploadDone (r : UploadResult)
  | selectAnalysisType (type : String)
  | startAnalysis (type : String) (args : List String)
  | analysisDone (type : String) (r : AnalysisResult)
  | redirect (type : String)
  deriving DecidableEq, Repr

/-- One event on the page. -/
def step (p : Page) : Event → Page
  | .handleFile => handleFile p
  | .uploadDone r => uploadDone p r
  | .selectAnalysisType type => selectAnalysisType p type
  | .startAnalysis type args => startAnalysis p type args
  | .analysisDone type r => if p.inFlight > 0 then analysisDone p type r else p
  | .redirect type => redirect p type

/-- A sequence of events. -/
def run (p : Page) (events : List Event) : Page := events.foldl step p

/-- The page at load: no fingerprint, the upload view shown, nothing done yet;
`full` says whether the optional elements are there. -/
def Page.load (full : Bool) : Page :=
  { currentFileHash := .null, currentFileExtension := .null,
    uploadAreaDisplay := "", analysisAreaHidden := true,
    fileName := if full then some (.str "") else none,
    fileSize := if full then some "" else none,
    fileType := if full then some "" else none,
    md5Hash := if full then some (.str "") else none,
    sha256Hash := if full then some (.str "") else none,
    step1Completed := if full then some false else none,
    step2Active := if full then some false else none,
    analysisArgs := if full then some "" else none,
    modals := 0, inFlight := 0, effects := [] }

/-- The outcome of an analysis request, as the specification names it. -/
inductive AnalysisOutcome where
  | success
  | earlyTermination (reason : String)
  | failure (message : JsVal)
  deriving DecidableEq, Repr

/-- The notification that reports an outcome. -/
def AnalysisOutcome.note : AnalysisOutcome → Notification
  | .success => ⟨.str "Analysis completed successfully!", "success"⟩
  | .earlyTermination reason => ⟨.str ("Process terminated early: " ++ reason), "error"⟩
  | .failure message => ⟨message, "error"⟩

/-- The outcome the handlers of `startAnalysis` report for a request that ends
as `r`: the branch they take. -/
def outcomeOf : AnalysisResult → AnalysisOutcome
  | .networkError message => .failure (.str ("Analysis failed: " ++ message))
  | .notJson message => .failure (.str ("Analysis failed: " ++ message))
  | .nullBody => .failure (.str ("Analysis failed: " ++ nullReadMessage "error"))
  | .body error status =>
    if error.truthy then .failure error
    else if status = .str "success" then .success
    else if status = .str "early_termination" then .earlyTermination error.toStr
    else .failure (.str "Analysis failed")

/-! ## Patterns named by the specification -/

/-- The pattern `^[1-9][0-9]*$` on the characters of a string. -/
def pidPattern : List Char → Bool
  | [] => false
  | c :: cs =>
    decide (0x31 ≤ c.toNat ∧ c.toNat ≤ 0x39) &&
      cs.all fun d => decide (0x30 ≤ d.toNat ∧ d.toNat ≤ 0x39)

/-- The pattern `^0*[1-9][0-9]*$`: the pattern above after any run of zeros. -/
def pidPatternLoose (s : List Char) : Bool := pidPattern (s.dropWhile fun c => c == '0')

/-- The four counter lines of a cleanup message, as the lines of a text. -/
def counterLines (d : CleanupDetails) : List String :=
  ["- " ++ toString d.uploads_cleaned ++ " uploaded files removed",
   "- " ++ toString d.analysis_cleaned ++ " analysis results cleaned (PE-Sieve, HolyGrail)",
   "- " ++ toString d.result_cleaned ++ " result folders cleaned",
   "- Doppelganger database cleaned"]

/-- The scenario of the specification: a warning with counts 3, 1, 2 and the
error line 'disk full'. -/
def warningScenario : CleanupResponse :=
  { status := .str "warning",
    details := some { uploads_cleaned := 3, analysis_cleaned := 1, result_cleaned := 2,
                      errors := some ["disk full"] },
    message := .undefined, error := .undefined }

/-- A warning response that leaves the `errors` list out. -/
def warningWithoutErrors : CleanupResponse :=
  { status := .str "warning",
    details := some { uploads_cleaned := 3, analysis_cleaned := 1, result_cleaned := 2,
                      errors := none },
    message := .undefined, error := .undefined }

/-- What the indicator shows in a health state. -/
def HealthState.indicator : HealthState → Indicator
  | .online => ⟨"status-dot online", "Online", "#10b981"⟩
  | .degraded => ⟨"status-dot degraded", "Degraded", "#f59e0b"⟩
  | .offline => ⟨"status-dot offline", "Offline", "#ef4444"⟩

/-- An element with nothing set. -/
def Element.plain (tag : String) (classes : List String) : Element :=
  { tag := tag, id := "", classes := classes, inStatusBadge := false, href := none,
    title := none, disabled := false, pointerEvents := "", opacity := "", cursor := "" }

/-- A navigation link to the summary page. -/
def summaryLink : Element := { Element.plain "a" ["nav-link"] with href := some "/summary" }

/-- An upload response with a complete `file_info` (the scenario of the
specification). -/
def uploadOk : UploadResult :=
  .body .undefined (some ⟨.str "a.exe", 1024, .str "exe", .str "d41d", .str "e3b0"⟩)

/-- An upload response whose `file_info` has a fingerprint but no extension. -/
def uploadNoExtension : UploadResult :=
  .body .undefined (some ⟨.str "a.exe", 1024, .undefined, .str "d41d", .str "e3b0"⟩)

/-- Whether a value is a string, the only kind with `toUpperCase`. -/
def JsVal.isStr : JsVal → Bool
  | .str _ => true
  | _ => false

/-- Whether `displayFileInfo` throws: the page has the `fileType` element and
the extension is not a string. -/
def displayThrows (p : Page) (fi : FileInfo) : Bool := p.fileType.isSome && !fi.extension.isStr

end SecureAgentBox

/-! # Theorems -/

namespace SecureAgentBox

/-! ## ProcessManager -/

theorem char_eq_zero_of_toNat {c : Char} (h : c.toNat = 0x30) : c = '0' := by
  have h2 := Char.ofNat_toNat c
  rw [h] at h2
  exact h2.symm

theorem parseInt_fold_eq_zero (l : List Char) (n : Nat) :
    l.foldl (fun n c => 10 * n + (c.toNat - 0x30)) n = 0 ↔
      n = 0 ∧ ∀ c ∈ l, c.toNat - 0x30 = 0 := by
  induction l generalizing n with
  | nil => simp
  | cons c cs ih =>
    simp only [List.foldl_cons, ih, List.mem_cons, forall_eq_or_imp]
    constructor
    · rintro ⟨h1, h2⟩
      exact ⟨by omega, by omega, h2⟩
    · rintro ⟨h1, h2, h3⟩
      exact ⟨by omega, h3⟩

theorem pidPatternLoose_eq (l : List Char) :
    pidPatternLoose l =
      (l.all (fun c => decide (0x30 ≤ c.toNat ∧ c.toNat ≤ 0x39)) &&
        l.any (fun c => decide (c.toNat - 0x30 ≠ 0))) := by
  unfold pidPatternLoose
  induction l with
  | nil => rfl
  | cons c cs ih =>
    by_cases hc : c = '0'
    · subst hc
      simp only [List.dropWhile_cons, beq_self_eq_true, if_true, ih, List.all_cons, List.any_cons]
      simp
    · have hne : c.toNat ≠ 0x30 := fun h => hc (char_eq_zero_of_toNat h)
      have hb : (c == '0') = false := by simpa using hc
      simp only [List.dropWhile_cons, hb, pidPattern, List.all_cons, List.any_cons]
      by_cases hd : 0x30 ≤ c.toNat ∧ c.toNat ≤ 0x39
      · have h1 : 0x31 ≤ c.toNat ∧ c.toNat ≤ 0x39 := by omega
        have h2 : c.toNat - 0x30 ≠ 0 := by omega
        simp [hd, h1, h2]
      · have h1 : ¬ (0x31 ≤ c.toNat ∧ c.toNat ≤ 0x39) := by omega
        simp [hd, h1]

theorem validatePID_isValid (pid : String) :
    (validatePID pid).isValid = pidPatternLoose pid.data := by
  rw [pidPatternLoose_eq]
  unfold validatePID
  by_cases h0 : pid = ""
  · subst h0; rfl
  · rw [if_neg h0]
    by_cases hd : allDigits pid = true
    · have hall : (pid.data.all fun c => decide (0x30 ≤ c.toNat ∧ c.toNat ≤ 0x39)) = true := by
        unfold allDigits at hd
        simp only [Bool.and_eq_true] at hd
        exact hd.2
      simp only [hd, Bool.not_true, Bool.false_eq_true, if_false, hall, Bool.true_and]
      by_cases hv : parseInt pid ≤ 0
      · rw [if_pos hv]
        have hz : parseInt pid = 0 := by omega
        unfold parseInt at hz
        rw [parseInt_fold_eq_zero] at hz
        symm
        simp only [List.any_eq_true, decide_eq_true_eq, not_exists, not_and, Bool.not_eq_true,
          Bool.false_eq_true, iff_false]
        simp only [Bool.false_eq, List.any_eq_false, decide_eq_true_eq, not_not]
        exact hz.2
      · rw [if_neg hv]
        have hz : parseInt pid ≠ 0 := by omega
        unfold parseInt at hz
        rw [Ne, parseInt_fold_eq_zero] at hz
        simp only [true_and, not_forall] at hz
        obtain ⟨c, hc, hne⟩ := hz
        symm
        simp only [List.any_eq_true, decide_eq_true_eq]
        exact ⟨c, hc, hne⟩
    · have hf : allDigits pid = false := by simpa using hd
      simp only [hf, Bool.not_false, if_true]
      have hne : pid.data.isEmpty = false := by
        cases hp : pid.data with
        | nil => exact absurd (String.ext hp) h0
        | cons _ _ => rfl
      unfold allDigits at hf
      simp only [hne, Bool.not_false, Bool.true_and] at hf
      rw [hf, Bool.false_and]

theorem validatePID_error_of_invalid (pid : String) (h : (validatePID pid).isValid = false) :
    ∃ e, (validatePID pid).error = some e := by
  unfold validatePID at h ⊢
  split_ifs at h ⊢ <;> simp_all

/-- C1 (as amended): every PID input outside `^0*[1-9][0-9]*$` - the empty
string, a string with a character that is not a digit, a string of zeros - is
rejected by `validatePID`, and `startAnalysis` then shows the validation error
and sends no request, whatever the network would answer. -/
theorem validatePID_rejects_before_request (pid : String) (net : ValidateResult)
    (h : pidPatternLoose pid.data = false) :
    (validatePID pid).isValid = false ∧
      ∃ e, (validatePID pid).error = some e ∧
        pidStartAnalysis pid net =
          { requests := [], notifications := [⟨.str e, "bg-red-500"⟩],
            location := none, modalHidden := false } := by
  have hv : (validatePID pid).isValid = false := by rw [validatePID_isValid, h]
  obtain ⟨e, he⟩ := validatePID_error_of_invalid pid hv
  refine ⟨hv, e, he, ?_⟩
  simp [pidStartAnalysis, hv, he]

/-- C1, witness: the string of zeros "000" is rejected and no request is sent. -/
theorem validatePID_rejects_before_request_witness :
    (validatePID "000").isValid = false ∧
      ∃ e, (validatePID "000").error = some e ∧
        pidStartAnalysis "000" (.response 200 .null) =
          { requests := [], notifications := [⟨.str e, "bg-red-500"⟩],
            location := none, modalHidden := false } :=
  validatePID_rejects_before_request "000" (.response 200 .null) (by decide)

/-- C1, counterexample: "01" does not match `^[1-9][0-9]*$`, yet `validatePID`
accepts it and `startAnalysis` sends the validation request for it. -/
theorem validatePID_accepts_leading_zero :
    pidPattern "01".data = false ∧ (validatePID "01").isValid = true ∧
      (pidStartAnalysis "01" (.response 200 .null)).requests = ["/validate/01"] := by
  decide

/-- C2: `validatePID` answers with 'Please enter a process ID' exactly on the
empty string, with 'PID must be a positive number' exactly on a non-empty
string holding a character that is not an ASCII digit, with 'PID must be
greater than 0' exactly on a non-empty string of digits whose value is 0, and
with `isValid = true` and no error exactly on a non-empty string of digits
whose value is greater than 0. -/
theorem validatePID_cases (pid : String) :
    (validatePID pid = ⟨false, some "Please enter a process ID"⟩ ↔ pid = "") ∧
    (validatePID pid = ⟨false, some "PID must be a positive number"⟩ ↔
      pid ≠ "" ∧ ∃ c ∈ pid.data, ¬ (0x30 ≤ c.toNat ∧ c.toNat ≤ 0x39)) ∧
    (validatePID pid = ⟨false, some "PID must be greater than 0"⟩ ↔
      pid ≠ "" ∧ (∀ c ∈ pid.data, 0x30 ≤ c.toNat ∧ c.toNat ≤ 0x39) ∧ parseInt pid = 0) ∧
    (validatePID pid = ⟨true, none⟩ ↔
      pid ≠ "" ∧ (∀ c ∈ pid.data, 0x30 ≤ c.toNat ∧ c.toNat ≤ 0x39) ∧ 0 < parseInt pid) := by
  have hall : allDigits pid = true ↔
      pid ≠ "" ∧ ∀ c ∈ pid.data, 0x30 ≤ c.toNat ∧ c.toNat ≤ 0x39 := by
    unfold allDigits
    have hne : pid ≠ "" ↔ pid.data.isEmpty = false := by
      constructor
      · intro h0
        cases hp : pid.data with
        | nil => exact absurd (String.ext hp) h0
        | cons _ _ => rfl
      · intro h hp
        subst hp
        simp at h
    simp only [Bool.and_eq_true, Bool.not_eq_true', List.all_eq_true, decide_eq_true_eq, hne]
  unfold validatePID
  by_cases h0 : pid = ""
  · subst h0
    simp
  · rw [if_neg h0]
    by_cases hd : allDigits pid = true
    · have hd2 := hall.mp hd
      simp only [hd, Bool.not_true, Bool.false_eq_true, if_false]
      by_cases hv : parseInt pid ≤ 0
      · rw [if_pos hv]
        have hz : parseInt pid = 0 := by omega
        refine ⟨by simp [h0], ?_, ?_, ?_⟩
        · simp only [Validation.mk.injEq, true_and, Option.some.injEq]
          constructor
          · intro h
            exact absurd h (by decide)
          · rintro ⟨_, c, hc, hn⟩
            exact absurd (hd2.2 c hc) hn
        · simp only [true_iff]
          exact ⟨h0, hd2.2, hz⟩
        · simp only [Validation.mk.injEq, Bool.false_eq_true, false_and, false_iff]
          rintro ⟨_, _, hp⟩
          omega
      · rw [if_neg hv]
        refine ⟨by simp [h0], ?_, ?_, ?_⟩
        · simp only [Validation.mk.injEq, Bool.true_eq_false, false_and, false_iff]
          rintro ⟨_, c, hc, hn⟩
          exact hn (hd2.2 c hc)
        · simp only [Validation.mk.injEq, Bool.true_eq_false, false_and, false_iff]
          rintro ⟨_, _, hp⟩
          omega
        · simp only [true_iff]
          exact ⟨h0, hd2.2, by omega⟩
    · have hf : allDigits pid = false := by simpa using hd
      simp only [hf, Bool.not_false, if_true]
      have hex : ∃ c ∈ pid.data, ¬ (0x30 ≤ c.toNat ∧ c.toNat ≤ 0x39) := by
        by_contra hcon
        push_neg at hcon
        exact hd (hall.mpr ⟨h0, hcon⟩)
      refine ⟨by simp [h0], ?_, ?_, ?_⟩
      · simp only [true_iff]
        exact ⟨h0, hex⟩
      · simp only [Validation.mk.injEq, true_and, Option.some.injEq]
        constructor
        · intro h
          exact absurd h (by decide)
        · rintro ⟨_, hd3, _⟩
          obtain ⟨c, hc, hn⟩ := hex
          exact absurd (hd3 c hc) hn
      · simp only [Validation.mk.injEq, Bool.false_eq_true, false_and, false_iff]
        rintro ⟨_, hd3, _⟩
        obtain ⟨c, hc, hn⟩ := hex
        exact absurd (hd3 c hc) hn

/-- C13 (as amended): `getErrorMessage` gives the not-found message naming the
PID for 404 and the access-denied message naming it for 403, whatever the
parsed body is; for any other status and a body that is not `null` it gives
`data.error` when that is truthy and 'Unknown error occurred' otherwise; and
for an accepted PID and a non-ok response whose body parses to a value that
is not `null`, `startAnalysis` shows exactly that message and does not
navigate. -/
theorem getErrorMessage_by_status (status : Nat) (pid : String) (error : JsVal)
    (hpid : (validatePID pid).isValid = true) (hok : statusOk status = false) :
    (∀ data, getErrorMessage 404 pid data =
      .ok (.str ("Process ID " ++ pid ++ " not found. Please verify the PID and try again."))) ∧
    (∀ data, getErrorMessage 403 pid data =
      .ok (.str ("Access denied to process " ++ pid ++ ". Please check permissions."))) ∧
    (status ≠ 404 → status ≠ 403 →
      getErrorMessage status pid (some error) =
        .ok (if error.truthy then error else .str "Unknown error occurred")) ∧
    ∃ v, getErrorMessage status pid (some error) = .ok v ∧
      pidStartAnalysis pid (.response status (.value error)) =
        { requests := ["/validate/" ++ pid], notifications := [⟨.str v.toStr, "bg-red-500"⟩],
          location := none, modalHidden := false } := by
  refine ⟨fun _ => by simp [getErrorMessage], fun _ => by simp [getErrorMessage], ?_, ?_⟩
  · intro h1 h2
    simp [getErrorMessage, h1, h2, JsVal.or]
  · have key : ∀ v, getErrorMessage status pid (some error) = .ok v → v ≠ .undefined →
        pidStartAnalysis pid (.response status (.value error)) =
          { requests := ["/validate/" ++ pid], notifications := [⟨.str v.toStr, "bg-red-500"⟩],
            location := none, modalHidden := false } := by
      intro v hv hne
      simp [pidStartAnalysis, hpid, validateOutcome, hok, hv, errorMessage, hne]
    by_cases h1 : status = 404
    · have hg : getErrorMessage status pid (some error) = .ok (.str ("Process ID " ++ pid ++
          " not found. Please verify the PID and try again.")) := by simp [getErrorMessage, h1]
      exact ⟨_, hg, key _ hg (by simp)⟩
    · by_cases h2 : status = 403
      · have hg : getErrorMessage status pid (some error) = .ok (.str ("Access denied to process "
            ++ pid ++ ". Please check permissions.")) := by simp [getErrorMessage, h2]
        exact ⟨_, hg, key _ hg (by simp)⟩
      · by_cases ht : error.truthy = true
        · have hg : getErrorMessage status pid (some error) = .ok error := by
            simp [getErrorMessage, h1, h2, JsVal.or, ht]
          refine ⟨error, hg, key _ hg ?_⟩
          intro hu
          rw [hu] at ht
          exact absurd ht (by decide)
        · have hg : getErrorMessage status pid (some error) = .ok (.str "Unknown error occurred") := by
            simp [getErrorMessage, h1, h2, JsVal.or, ht]
          exact ⟨_, hg, key _ hg (by simp)⟩

/-- C13, witness: status 500 with body error "boom" for the PID "42". -/
theorem getErrorMessage_by_status_witness :
    (∀ data, getErrorMessage 404 "42" data =
      .ok (.str ("Process ID " ++ "42" ++ " not found. Please verify the PID and try again."))) ∧
    (∀ data, getErrorMessage 403 "42" data =
      .ok (.str ("Access denied to process " ++ "42" ++ ". Please check permissions."))) ∧
    ((500 : Nat) ≠ 404 → (500 : Nat) ≠ 403 →
      getErrorMessage 500 "42" (some (.str "boom")) =
        .ok (if (JsVal.str "boom").truthy then .str "boom" else .str "Unknown error occurred")) ∧
    ∃ v, getErrorMessage 500 "42" (some (.str "boom")) = .ok v ∧
      pidStartAnalysis "42" (.response 500 (.value (.str "boom"))) =
        { requests := ["/validate/" ++ "42"], notifications := [⟨.str v.toStr, "bg-red-500"⟩],
          location := none, modalHidden := false } :=
  getErrorMessage_by_status 500 "42" (.str "boom") (by decide) (by decide)

/-- C13, counterexample: for a 404 answer whose body is not JSON,
`startAnalysis` shows the parse error and not the not-found message that
`getErrorMessage` gives for 404; and for a body whose `error` is `false`,
neither absent nor empty, `getErrorMessage` falls back to 'Unknown error
occurred'. -/
theorem validation_body_changes_message :
    getErrorMessage 404 "42" none =
        .ok (.str "Process ID 42 not found. Please verify the PID and try again.") ∧
      (pidStartAnalysis "42" (.response 404 (.notJson "Unexpected token <"))).notifications =
        [⟨.str "Unexpected token <", "bg-red-500"⟩] ∧
      getErrorMessage 500 "42" (some (.bool false)) = .ok (.str "Unknown error occurred") :=
  ⟨by rfl, by decide, by rfl⟩

/-! ## CleanupSystem -/

theorem digitChar_ne_newline : ∀ k < 10, Nat.digitChar k ≠ '\n' := by decide

theorem toDigitsCore_no_newline (fuel n : Nat) (ds : List Char) (h : '\n' ∉ ds) :
    '\n' ∉ Nat.toDigitsCore 10 fuel n ds := by
  induction fuel generalizing n ds with
  | zero => simpa [Nat.toDigitsCore] using h
  | succ fuel ih =>
    have hd : '\n' ∉ Nat.digitChar (n % 10) :: ds := by
      simp only [List.mem_cons, not_or]
      exact ⟨fun e => digitChar_ne_newline (n % 10) (Nat.mod_lt _ (by decide)) e.symm, h⟩
    simp only [Nat.toDigitsCore]
    split
    · exact hd
    · exact ih _ _ hd

theorem toString_no_newline (n : Nat) : '\n' ∉ (toString n).data := by
  show '\n' ∉ (Nat.repr n).data
  simp only [Nat.repr, Nat.toDigits, List.asString]
  exact toDigitsCore_no_newline _ _ _ (by simp)

theorem linesOf_joinLines (ls : List String) (hne : ls ≠ [])
    (h : ∀ l ∈ ls, '\n' ∉ l.data) : linesOf (joinLines ls) = ls := by
  unfold linesOf joinLines
  simp only
  rw [List.splitOn_intercalate]
  · simp [List.map_map, Function.comp_def]
  · intro l hl
    simp only [List.mem_map] at hl
    obtain ⟨a, ha, rfl⟩ := hl
    exact h a ha
  · simpa using hne

theorem joinLines_cons (l : String) (ls : List String) (hne : ls ≠ []) :
    joinLines (l :: ls) = l ++ "\n" ++ joinLines ls := by
  cases ls with
  | nil => exact absurd rfl hne
  | cons m ms =>
    apply String.ext
    simp [joinLines, List.intercalate, List.intersperse, String.data_append]

theorem joinLines_append (as bs : List String) (ha : as ≠ []) (hb : bs ≠ []) :
    joinLines (as ++ bs) = joinLines as ++ "\n" ++ joinLines bs := by
  induction as with
  | nil => exact absurd rfl ha
  | cons a as ih =>
    cases as with
    | nil =>
      have e0 : joinLines [a] = a := by
        apply String.ext
        simp [joinLines, List.intercalate, List.intersperse]
      rw [List.singleton_append, joinLines_cons _ _ hb, e0]
    | cons a2 as =>
      have e1 : joinLines (a :: (a2 :: as ++ bs)) = a ++ "\n" ++ joinLines (a2 :: as ++ bs) :=
        joinLines_cons _ _ (by simp)
      have e2 : joinLines (a :: a2 :: as) = a ++ "\n" ++ joinLines (a2 :: as) :=
        joinLines_cons _ _ (by simp)
      rw [List.cons_append, e1, e2, ih (by simp)]
      apply String.ext
      simp only [String.data_append, List.append_assoc]

theorem counterText_eq (d : CleanupDetails) : counterText d = joinLines (counterLines d) := by
  have h1 : " uploaded files removed\n- " = " uploaded files removed" ++ "\n" ++ "- " := by decide
  have h2 : " analysis results cleaned (PE-Sieve, HolyGrail)\n- " =
      " analysis results cleaned (PE-Sieve, HolyGrail)" ++ "\n" ++ "- " := by decide
  have h3 : " result folders cleaned\n- Doppelganger database cleaned" =
      " result folders cleaned" ++ "\n" ++ "- Doppelganger database cleaned" := by decide
  have h4 : ("\n" : String).data = ['\n'] := rfl
  unfold counterText counterLines
  rw [h1, h2, h3]
  apply String.ext
  simp [joinLines, List.intercalate, List.intersperse, String.data_append, h4]

theorem counterLines_no_newline (d : CleanupDetails) : ∀ l ∈ counterLines d, '\n' ∉ l.data := by
  have a1 : '\n' ∉ "- ".data := by decide
  have a2 : '\n' ∉ " uploaded files removed".data := by decide
  have a3 : '\n' ∉ " analysis results cleaned (PE-Sieve, HolyGrail)".data := by decide
  have a4 : '\n' ∉ " result folders cleaned".data := by decide
  have a5 : '\n' ∉ "- Doppelganger database cleaned".data := by decide
  intro l hl
  simp only [counterLines, List.mem_cons, List.mem_singleton, List.not_mem_nil, or_false] at hl
  rcases hl with rfl | rfl | rfl | rfl
  · simp only [String.data_append, List.mem_append, not_or]
    exact ⟨⟨a1, toString_no_newline _⟩, a2⟩
  · simp only [String.data_append, List.mem_append, not_or]
    exact ⟨⟨a1, toString_no_newline _⟩, a3⟩
  · simp only [String.data_append, List.mem_append, not_or]
    exact ⟨⟨a1, toString_no_newline _⟩, a4⟩
  · exact a5

theorem joinLines_empty_entry (errors : List String) :
    joinLines errors = joinLines (if errors = [] then [""] else errors) := by
  cases errors with
  | nil => rfl
  | cons e es => rfl

/-- C14 (as amended): `formatResponse` styles a response by its `status`:
"success" with its `details` present gives 'bg-green-500' and the message
whose lines are the heading and the four counter lines, with no error list;
"warning" with its `details` and their `errors` list present gives
'bg-yellow-500' and the message whose lines are the heading, the same four
counter lines, an empty line, 'Errors:' and then every entry of `errors`, one
per line, in order; any other status gives 'bg-red-500'. -/
theorem formatResponse_styles (data : CleanupResponse) :
    (data.status = .str "success" → ∀ d, data.details = some d →
      ∃ r, formatResponse data = .ok r ∧ r.className = "bg-green-500" ∧
        linesOf r.message = "Cleanup successful:" :: counterLines d) ∧
    (data.status = .str "warning" → ∀ d errors, data.details = some d →
      d.errors = some errors → (∀ e ∈ errors, '\n' ∉ e.data) →
      ∃ r, formatResponse data = .ok r ∧ r.className = "bg-yellow-500" ∧
        linesOf r.message = "Cleanup completed with warnings:" :: counterLines d ++
          ["", "Errors:"] ++ (if errors = [] then [""] else errors)) ∧
    (data.status ≠ .str "success" → data.status ≠ .str "warning" →
      formatResponse data =
        .ok ⟨"Cleanup failed: " ++ (data.message.or data.error).toStr, "bg-red-500"⟩) := by
  have b1 : '\n' ∉ "Cleanup successful:".data := by decide
  have b2 : '\n' ∉ "Cleanup completed with warnings:".data := by decide
  have b3 : '\n' ∉ "Errors:".data := by decide
  have c1 : "Cleanup successful:\n" = "Cleanup successful:" ++ "\n" := by decide
  have c2 : "Cleanup completed with warnings:\n" = "Cleanup completed with warnings:" ++ "\n" := by
    decide
  have c3 : "\n\nErrors:\n" = "\n" ++ ("" ++ "\n" ++ ("Errors:" ++ "\n")) := by decide
  refine ⟨?_, ?_, ?_⟩
  · intro hs d hd
    refine ⟨_, by simp only [formatResponse, hs, if_true, hd]; rfl, rfl, ?_⟩
    have hm : "Cleanup successful:\n" ++ counterText d =
        joinLines ("Cleanup successful:" :: counterLines d) := by
      rw [joinLines_cons _ _ (by simp [counterLines]), counterText_eq, c1]
    simp only [hm]
    apply linesOf_joinLines _ (by simp)
    intro l hl
    rcases List.mem_cons.mp hl with rfl | hl
    · exact b1
    · exact counterLines_no_newline d l hl
  · intro hs d errors hd he hn
    have hne : data.status ≠ .str "success" := by rw [hs]; decide
    refine ⟨_, by simp only [formatResponse, hs, hd, he]; rfl, rfl, ?_⟩
    have hE : (if errors = [] then [""] else errors) ≠ [] ∧
        ∀ l ∈ (if errors = [] then [""] else errors), '\n' ∉ l.data := by
      split_ifs with h
      · exact ⟨by simp, fun l hl => by rw [List.mem_singleton.mp hl]; decide⟩
      · exact ⟨h, hn⟩
    have hm : "Cleanup completed with warnings:\n" ++ counterText d ++ "\n\nErrors:\n"
          ++ joinLines errors =
        joinLines ("Cleanup completed with warnings:" :: counterLines d ++ ["", "Errors:"] ++
          (if errors = [] then [""] else errors)) := by
      rw [joinLines_empty_entry errors]
      generalize (if errors = [] then [""] else errors) = es at hE ⊢
      rw [List.cons_append, List.cons_append, joinLines_cons _ _ (by simp [counterLines]),
        List.append_assoc, joinLines_append _ _ (by simp [counterLines]) (by simp),
        List.cons_append, List.cons_append, List.nil_append, joinLines_cons _ _ (by simp),
        joinLines_cons _ _ hE.1, counterText_eq, c2, c3]
      apply String.ext
      simp only [String.data_append, List.append_assoc]
    simp only [hm]
    generalize (if errors = [] then [""] else errors) = es at hE ⊢
    apply linesOf_joinLines _ (by simp)
    intro l hl
    simp only [List.cons_append, List.mem_cons, List.mem_append, List.mem_singleton,
      List.not_mem_nil, or_false] at hl
    rcases hl with rfl | (hl | rfl | rfl) | hl
    · exact b2
    · exact counterLines_no_newline d l hl
    · decide
    · exact b3
    · exact hE.2 l hl
  · intro h1 h2
    simp [formatResponse, h1, h2]

/-- C14, witness: the scenario of the specification gives the yellow style
and a message with the counts 3, 1, 2 on their lines and the line 'disk full'
after 'Errors:'. -/
theorem formatResponse_styles_witness :
    ∃ r, formatResponse warningScenario = .ok r ∧ r.className = "bg-yellow-500" ∧
      linesOf r.message =
        ["Cleanup completed with warnings:", "- 3 uploaded files removed",
         "- 1 analysis results cleaned (PE-Sieve, HolyGrail)", "- 2 result folders cleaned",
         "- Doppelganger database cleaned", "", "Errors:", "disk full"] :=
  (formatResponse_styles warningScenario).2.1 rfl _ _ rfl rfl (by decide)

/-- C14, counterexample: a "warning" response without an `errors` list gets
no style from `formatResponse`, which throws, and `execute` reports it in red. -/
theorem formatResponse_throws_without_errors :
    formatResponse warningWithoutErrors = .error (readMessage "undefined" "join") ∧
      (cleanupNotification warningWithoutErrors).type = "bg-red-500" :=
  ⟨by rfl, by decide⟩

/-! ## StatusManager -/

/-- C9 (as amended): `checkStatus` puts every probe result into exactly one
health state: Online when the parsed body has `status` equal to "ok",
Degraded when the body parses to a value other than `null` whose `status` is
anything else, Offline when the request fails, the body is not JSON or the
body is `null`; the indicator shows that state, and `isOnline` is true exactly
when the state is not Offline. -/
theorem checkStatus_classifies (m : StatusManager) (r : ProbeResult) :
    (probeState r = .online ↔ r = .body (.str "ok")) ∧
    (probeState r = .degraded ↔ ∃ status, r = .body status ∧ status ≠ .str "ok") ∧
    (probeState r = .offline ↔ r = .networkFailure ∨ r = .notJson ∨ r = .nullBody) ∧
    (checkStatus m r).indicator = m.indicator.map (fun _ => (probeState r).indicator) ∧
    (checkStatus m r).doc =
      (if probeState r = .offline then disableAllFunctionality m.doc
       else enableAllFunctionality m.doc) ∧
    ((checkStatus m r).isOnline = true ↔ probeState r ≠ .offline) := by
  cases r with
  | networkFailure => simp [probeState, checkStatus, setOfflineState, HealthState.indicator]
  | notJson => simp [probeState, checkStatus, setOfflineState, HealthState.indicator]
  | nullBody => simp [probeState, checkStatus, setOfflineState, HealthState.indicator]
  | body status =>
    by_cases h : status = .str "ok"
    · simp [probeState, checkStatus, setOnlineState, HealthState.indicator, h]
    · simp [probeState, checkStatus, setDegradedState, HealthState.indicator, h]

/-- C9, counterexample: a reachable backend that answers with the body `null`,
or with a body that is not JSON, is put into Offline, not Degraded, and
`isOnline` becomes false. -/
theorem null_body_is_offline :
    probeState .nullBody = .offline ∧ probeState .notJson = .offline ∧
      (checkStatus (StatusManager.initial (some ⟨"", "", ""⟩) []) .nullBody).indicator =
        some ⟨"status-dot offline", "Offline", "#ef4444"⟩ ∧
      (checkStatus (StatusManager.initial (some ⟨"", "", ""⟩) []) .nullBody).isOnline = false := by
  decide

/-- C10, the code at the failing input: after `disableAllFunctionality` the
navigation link to "/summary" is untouched - pointer events not turned off,
no title - because its `href` holds a '/'. -/
theorem disable_leaves_summary_link :
    disableAllFunctionality [summaryLink] = [offlineBanner, summaryLink] ∧
      summaryLink.pointerEvents = "" ∧ summaryLink.title = none := by
  decide

/-- C11, the code at the failing input: a plain button that goes through
`disableAllFunctionality` and then `enableAllFunctionality` is enabled again
but keeps the cursor 'not-allowed' and the title 'System is offline'; an
`.action-btn` keeps the title. -/
theorem enable_leaves_title_and_cursor :
    enableAllFunctionality (disableAllFunctionality [Element.plain "button" []]) =
        [offlineBanner,
         { Element.plain "button" [] with
             disabled := false, opacity := "1", cursor := "not-allowed",
             title := some "System is offline" }] ∧
      enableAllFunctionality (disableAllFunctionality [Element.plain "a" ["action-btn"]]) =
        [offlineBanner,
         { Element.plain "a" ["action-btn"] with
             disabled := false, opacity := "1", cursor := "pointer",
             title := some "System is offline" }] := by
  decide

theorem bannerCount_map (f : Element → Element) (hf : ∀ e, (f e).classes = e.classes)
    (doc : List Element) : bannerCount (doc.map f) = bannerCount doc := by
  unfold bannerCount
  rw [List.countP_map]
  congr 1
  funext e
  simp [isOfflineBanner, hf]

theorem bannerCount_updateById (id : String) (f : Element → Element)
    (hf : ∀ e, (f e).classes = e.classes) (doc : List Element) :
    bannerCount (updateById id f doc) = bannerCount doc := by
  induction doc with
  | nil => rfl
  | cons e es ih =>
    unfold bannerCount at ih ⊢
    simp only [updateById]
    split
    · simp [List.countP_cons, isOfflineBanner, hf]
    · simp [List.countP_cons, ih]

theorem bannerCount_enable (doc : List Element) :
    bannerCount (enableAllFunctionality doc) = bannerCount doc := by
  unfold enableAllFunctionality
  simp only
  rw [bannerCount_map, bannerCount_updateById, bannerCount_map, bannerCount_map]
  all_goals intro e
  all_goals try split
  all_goals rfl

theorem bannerCount_disable (doc : List Element) :
    bannerCount (disableAllFunctionality doc) =
      if bannerCount doc = 0 then 1 else bannerCount doc := by
  have hany : ∀ d : List Element, d.any isOfflineBanner = true ↔ bannerCount d ≠ 0 := by
    intro d
    unfold bannerCount
    rw [Ne, List.countP_eq_zero]
    simp
  have hpass : ∀ d : List Element,
      bannerCount (if !d.any isOfflineBanner then showOfflineBanner d else d) =
        if bannerCount d = 0 then 1 else bannerCount d := by
    intro d
    by_cases h : bannerCount d = 0
    · have hf : d.any isOfflineBanner = false := by
        by_contra hc
        exact (hany d).mp (by simpa using hc) h
      rw [hf]
      simp only [Bool.not_false, if_true, h]
      show List.countP isOfflineBanner (offlineBanner :: d) = 1
      rw [List.countP_cons]
      unfold bannerCount at h
      rw [h]
      rfl
    · have ht : d.any isOfflineBanner = true := (hany d).mpr h
      rw [ht]
      simp [h]
  unfold disableAllFunctionality
  simp only
  rw [hpass, bannerCount_map, bannerCount_updateById, bannerCount_map, bannerCount_map]
  all_goals intro e
  all_goals try split
  all_goals rfl

theorem bannerCount_checkStatus (m : StatusManager) (r : ProbeResult) :
    bannerCount (checkStatus m r).doc =
      if probeState r = .offline then (if bannerCount m.doc = 0 then 1 else bannerCount m.doc)
      else bannerCount m.doc := by
  cases r with
  | networkFailure => simp [probeState, checkStatus, setOfflineState, bannerCount_disable]
  | notJson => simp [probeState, checkStatus, setOfflineState, bannerCount_disable]
  | nullBody => simp [probeState, checkStatus, setOfflineState, bannerCount_disable]
  | body status =>
    by_cases h : status = .str "ok"
    · simp [probeState, checkStatus, setOnlineState, bannerCount_enable, h]
    · simp [probeState, checkStatus, setDegradedState, bannerCount_enable, h]

theorem bannerCount_runProbes (rs : List ProbeResult) (m : StatusManager)
    (h : bannerCount m.doc ≤ 1) :
    bannerCount (runProbes m rs).doc =
      if bannerCount m.doc = 1 ∨ rs.any (fun r => decide (probeState r = .offline)) = true
      then 1 else 0 := by
  induction rs generalizing m with
  | nil =>
    simp only [runProbes, List.foldl_nil, List.any_nil, Bool.false_eq_true, or_false]
    split_ifs <;> omega
  | cons r rs ih =>
    have hstep := bannerCount_checkStatus m r
    have hle : bannerCount (checkStatus m r).doc ≤ 1 := by
      rw [hstep]
      split_ifs <;> omega
    have := ih (checkStatus m r) hle
    simp only [runProbes, List.foldl_cons] at this ⊢
    rw [this, hstep]
    by_cases ho : probeState r = .offline
    · simp only [ho, if_true, List.any_cons, decide_True, Bool.true_or, or_true]
      have hc : bannerCount m.doc = 0 ∨ bannerCount m.doc = 1 := by omega
      rcases hc with hc | hc <;> simp [hc]
    · simp only [ho, if_false, List.any_cons, decide_False, Bool.false_or]

/-- C12: on a page that starts with at most one banner (none, as loaded),
after any sequence of health probe results the number of `.offline-banner`
elements is at most one: it is one once there was a banner or some probe came
out Offline, and zero before; an Offline result adds a banner exactly when
none is present, so the first Offline transition adds one and no later one
adds another. -/
theorem offline_banner_at_most_one (m : StatusManager) (rs : List ProbeResult)
    (h : bannerCount m.doc ≤ 1) :
    bannerCount (runProbes m rs).doc ≤ 1 ∧
      bannerCount (runProbes m rs).doc =
        (if bannerCount m.doc = 1 ∨ rs.any (fun r => decide (probeState r = .offline)) = true
         then 1 else 0) ∧
      ∀ r, bannerCount (runProbes m (rs ++ [r])).doc =
        if probeState r = .offline ∧ bannerCount (runProbes m rs).doc = 0 then 1
        else bannerCount (runProbes m rs).doc := by
  have h1 := bannerCount_runProbes rs m h
  refine ⟨?_, h1, ?_⟩
  · rw [h1]
    split_ifs <;> omega
  · intro r
    have hs : runProbes m (rs ++ [r]) = checkStatus (runProbes m rs) r := by
      simp [runProbes, List.foldl_append]
    rw [hs, bannerCount_checkStatus]
    by_cases ho : probeState r = .offline
    · simp only [ho, if_true, true_and]
    · simp only [ho, if_false, false_and]

/-- C12, witness: Offline, Online, Offline on a page with one button leaves
exactly one banner. -/
theorem offline_banner_at_most_one_witness :
    bannerCount (runProbes (StatusManager.initial none [Element.plain "button" []])
        [.networkFailure, .body (.str "ok"), .networkFailure]).doc = 1 :=
  ((offline_banner_at_most_one (StatusManager.initial none [Element.plain "button" []])
    [.networkFailure, .body (.str "ok"), .networkFailure] (by decide)).2.1).trans (by decide)

/-! ## upload.js: formatFileSize -/

theorem floorLog_spec (fuel n : Nat) (hn : 0 < n) (hf : n ≤ fuel) :
    1024 ^ floorLog 1024 fuel n ≤ n ∧ n < 1024 ^ (floorLog 1024 fuel n + 1) := by
  induction fuel generalizing n with
  | zero => omega
  | succ fuel ih =>
    unfold floorLog
    by_cases h : n < 1024
    · simp only [h, if_true, pow_zero, zero_add, pow_one]
      exact ⟨hn, trivial⟩
    · simp only [h, if_false]
      have hq : 0 < n / 1024 := Nat.div_pos (by omega) (by decide)
      have hq2 : n / 1024 ≤ fuel := by
        have : n / 1024 < n := Nat.div_lt_self hn (by decide)
        omega
      obtain ⟨h1, h2⟩ := ih (n / 1024) hq hq2
      constructor
      · rw [pow_succ]
        exact (Nat.le_div_iff_mul_le (by decide)).mp h1
      · rw [pow_succ]
        exact (Nat.div_lt_iff_lt_mul (by decide)).mp h2

theorem unitIndex_lt_four (bytes : Nat) (h0 : 0 < bytes) (h4 : bytes < 1024 ^ 4) :
    unitIndex bytes < 4 := by
  have h := (floorLog_spec bytes bytes h0 (le_refl _)).1
  by_contra hc
  have h5 : 1024 ^ 4 ≤ 1024 ^ unitIndex bytes :=
    Nat.pow_le_pow_right (by decide) (by omega)
  unfold unitIndex at h5
  omega

/-- C15 (as amended): `formatFileSize` gives '0 Bytes' for 0, and for every
size with 0 < size < 1024^4 the text '<n> <unit>' where the unit is the i-th
of 'Bytes', 'KB', 'MB', 'GB' for the largest i with 1024^i <= size, and n is
size / 1024^i rounded to the nearest hundredth (a tie upwards) and written
without trailing zeros, with 1 <= n <= 1024; `displayFileInfo` shows this text
as the size and the upper-cased extension as the type. -/
theorem formatFileSize_units (bytes : Nat) (h0 : 0 < bytes) (h4 : bytes < 1024 ^ 4) :
    formatFileSize 0 = "0 Bytes" ∧
    (∃ i unit, i < 4 ∧ sizes.get? i = some unit ∧
      1024 ^ i ≤ bytes ∧ bytes < 1024 ^ (i + 1) ∧
      formatFileSize bytes = numberText (hundredths bytes i) ++ " " ++ unit ∧
      2 * 1024 ^ i * hundredths bytes i ≤ 200 * bytes + 1024 ^ i ∧
      200 * bytes < 2 * 1024 ^ i * hundredths bytes i + 1024 ^ i ∧
      100 ≤ hundredths bytes i ∧ hundredths bytes i ≤ 102400) ∧
    (∀ (p : Page) (fi : FileInfo) (ext : String), p.fileSize ≠ none → p.fileType ≠ none →
      fi.size = bytes → fi.extension = .str ext →
      (displayFileInfo p fi).1.fileSize = some (formatFileSize bytes) ∧
        (displayFileInfo p fi).1.fileType = some (toUpperCase ext)) := by
  refine ⟨rfl, ?_, ?_⟩
  · have hi := unitIndex_lt_four bytes h0 h4
    obtain ⟨h1, h2⟩ := floorLog_spec bytes bytes h0 (le_refl _)
    have hu : ∃ unit, sizes.get? (unitIndex bytes) = some unit := by
      have : unitIndex bytes = 0 ∨ unitIndex bytes = 1 ∨ unitIndex bytes = 2 ∨
          unitIndex bytes = 3 := by omega
      rcases this with e | e | e | e <;> rw [e] <;> exact ⟨_, rfl⟩
    obtain ⟨unit, hunit⟩ := hu
    refine ⟨unitIndex bytes, unit, hi, hunit, h1, h2, ?_, ?_, ?_, ?_, ?_⟩
    · unfold formatFileSize
      rw [if_neg (by omega)]
      simp only [hunit, Option.getD_some]
    all_goals
      show _
      unfold hundredths
      have hP : 0 < 1024 ^ unitIndex bytes := by positivity
      have h2' : bytes < 1024 ^ unitIndex bytes * 1024 := by
        rw [← pow_succ]
        exact h2
      have h1' : 1024 ^ unitIndex bytes ≤ bytes := h1
      generalize 1024 ^ unitIndex bytes = P at hP h1' h2' ⊢
    · exact Nat.mul_div_le _ _
    · have := Nat.lt_mul_div_succ (200 * bytes + P) (show 0 < 2 * P by omega)
      rw [Nat.mul_succ] at this
      omega
    · rw [Nat.le_div_iff_mul_le (by omega)]
      omega
    · have : (200 * bytes + P) / (2 * P) < 102401 := by
        rw [Nat.div_lt_iff_lt_mul (by omega)]
        omega
      omega
  · intro p fi ext hs ht hsz hext
    cases hfs : p.fileSize with
    | none => exact absurd hfs hs
    | some a =>
      cases hft : p.fileType with
      | none => exact absurd hft ht
      | some b => simp [displayFileInfo, hfs, hft, hext, hsz]

/-- C15, witness: the scenario of the specification, size 1024 and extension
"exe", gives "1 KB" and "EXE". -/
theorem formatFileSize_units_witness :
    formatFileSize 1024 = "1 KB" ∧
      (displayFileInfo (Page.load true)
        ⟨.str "a.exe", 1024, .str "exe", .str "d41d", .str "e3b0"⟩).1.fileSize = some "1 KB" ∧
      (displayFileInfo (Page.load true)
        ⟨.str "a.exe", 1024, .str "exe", .str "d41d", .str "e3b0"⟩).1.fileType = some "EXE" :=
  ⟨by decide,
   ((formatFileSize_units 1024 (by decide) (by decide)).2.2 (Page.load true)
      ⟨.str "a.exe", 1024, .str "exe", .str "d41d", .str "e3b0"⟩ "exe"
      (by decide) (by decide) rfl rfl).1.trans (by decide),
   ((formatFileSize_units 1024 (by decide) (by decide)).2.2 (Page.load true)
      ⟨.str "a.exe", 1024, .str "exe", .str "d41d", .str "e3b0"⟩ "exe"
      (by decide) (by decide) rfl rfl).2.trans (by decide)⟩

/-- C15, counterexample: one byte below 1 MB the number shown is 1024, not
below 1024; and at 1024^4 bytes the index runs past the table of units, which
has no entry for it, and the text reads '1 undefined'. -/
theorem formatFileSize_outside_claim :
    formatFileSize 1048575 = "1024 KB" ∧ hundredths 1048575 (unitIndex 1048575) = 102400 ∧
      formatFileSize (1024 ^ 4) = "1 undefined" ∧ sizes.get? (unitIndex (1024 ^ 4)) = none := by
  decide

/-! ## upload.js: the argument list -/

theorem splitOnP_concat_space (l : List Char) (c : Char) (hc : isJsSpace c = true) :
    (l ++ [c]).splitOnP isJsSpace = l.splitOnP isJsSpace ++ [[]] := by
  induction l with
  | nil => simp [hc]
  | cons a l ih =>
    rw [List.cons_append, List.splitOnP_cons, List.splitOnP_cons, ih]
    split
    · rfl
    · cases hs : List.splitOnP isJsSpace l with
      | nil => exact absurd hs (List.splitOnP_ne_nil _ _)
      | cons x xs => rfl

theorem nonSpaceRuns_concat_space (l : List Char) (c : Char) (hc : isJsSpace c = true) :
    nonSpaceRuns (l ++ [c]) = nonSpaceRuns l := by
  unfold nonSpaceRuns
  rw [splitOnP_concat_space l c hc, List.filter_append]
  simp

theorem nonSpaceRuns_cons_space (l : List Char) (c : Char) (hc : isJsSpace c = true) :
    nonSpaceRuns (c :: l) = nonSpaceRuns l := by
  unfold nonSpaceRuns
  rw [List.splitOnP_cons, if_pos hc]
  simp

theorem nonSpaceRuns_dropWhile (l : List Char) :
    nonSpaceRuns (l.dropWhile isJsSpace) = nonSpaceRuns l := by
  induction l with
  | nil => rfl
  | cons a l ih =>
    by_cases h : isJsSpace a = true
    · rw [List.dropWhile_cons_of_pos h, ih, nonSpaceRuns_cons_space l a h]
    · rw [List.dropWhile_cons_of_neg h]

theorem nonSpaceRuns_rdropWhile (l : List Char) :
    nonSpaceRuns (l.rdropWhile isJsSpace) = nonSpaceRuns l := by
  induction l using List.reverseRecOn with
  | nil => rfl
  | append_singleton l a ih =>
    by_cases h : isJsSpace a = true
    · rw [List.rdropWhile_concat_pos _ _ _ h, ih, nonSpaceRuns_concat_space l a h]
    · rw [List.rdropWhile_concat_neg _ _ _ h]

theorem nonSpaceRuns_jsTrim (l : List Char) : nonSpaceRuns (jsTrim l) = nonSpaceRuns l := by
  show nonSpaceRuns ((l.dropWhile isJsSpace).rdropWhile isJsSpace) = nonSpaceRuns l
  rw [nonSpaceRuns_rdropWhile, nonSpaceRuns_dropWhile]

theorem filter_splitScan (l : List Char) : ∀ (inSep : Bool) (piece : List Char),
    (inSep = true → piece = []) →
    (splitScan inSep piece l).filter (fun x => !x.isEmpty) =
      ((l.splitOnP isJsSpace).modifyHead (piece.reverse ++ ·)).filter (fun x => !x.isEmpty) := by
  induction l with
  | nil =>
    intro inSep piece _
    simp [splitScan]
  | cons c cs ih =>
    intro inSep piece hp
    rw [List.splitOnP_cons]
    by_cases hc : isJsSpace c = true
    · simp only [splitScan, hc, if_true, List.modifyHead_cons, List.append_nil]
      cases inSep with
      | true =>
        have hp2 := hp rfl
        subst hp2
        simp only [if_true]
        rw [ih true [] (fun _ => rfl)]
        cases hs : List.splitOnP isJsSpace cs with
        | nil => exact absurd hs (List.splitOnP_ne_nil _ _)
        | cons x xs => simp
      | false =>
        simp only [Bool.false_eq_true, if_false, List.filter_cons]
        rw [ih true [] (fun _ => rfl)]
        cases hs : List.splitOnP isJsSpace cs with
        | nil => exact absurd hs (List.splitOnP_ne_nil _ _)
        | cons x xs => simp
    · simp only [splitScan, hc, if_false, Bool.false_eq_true]
      rw [ih false (c :: piece) (fun h => absurd h (by decide))]
      cases hs : List.splitOnP isJsSpace cs with
      | nil => exact absurd hs (List.splitOnP_ne_nil _ _)
      | cons x xs => simp

theorem filter_splitSpaces (l : List Char) :
    (splitSpaces l).filter (fun x => !x.isEmpty) = nonSpaceRuns l := by
  unfold splitSpaces nonSpaceRuns
  rw [filter_splitScan l false [] (fun h => absurd h (by decide))]
  cases hs : List.splitOnP isJsSpace l with
  | nil => exact absurd hs (List.splitOnP_ne_nil _ _)
  | cons x xs => simp

theorem splitScan_pieces_nonempty (l : List Char) : ∀ (inSep : Bool) (piece : List Char),
    (inSep = true → l ≠ []) → (inSep = false → piece ≠ []) →
    (∀ c, l.getLast? = some c → isJsSpace c = false) →
    ∀ x ∈ splitScan inSep piece l, x ≠ [] := by
  induction l with
  | nil =>
    intro inSep piece h1 h2 _ x hx
    cases inSep with
    | true => exact absurd rfl (h1 rfl)
    | false =>
      simp only [splitScan, List.mem_singleton] at hx
      subst hx
      simpa using h2 rfl
  | cons c cs ih =>
    intro inSep piece h1 h2 hl x hx
    have hcs : isJsSpace c = true → cs ≠ [] := by
      intro hc hnil
      subst hnil
      have := hl c rfl
      rw [hc] at this
      exact absurd this (by decide)
    have hl2 : ∀ d, cs.getLast? = some d → isJsSpace d = false := by
      intro d hd
      apply hl d
      cases cs with
      | nil => simp at hd
      | cons e es => simpa [List.getLast?_cons_cons] using hd
    by_cases hc : isJsSpace c = true
    · cases inSep with
      | true =>
        simp only [splitScan, hc, if_true] at hx
        exact ih true piece (fun _ => hcs hc) (fun h => absurd h (by decide)) hl2 x hx
      | false =>
        simp only [splitScan, hc, if_true, Bool.false_eq_true, if_false, List.mem_cons] at hx
        rcases hx with rfl | hx
        · simpa using h2 rfl
        · exact ih true [] (fun _ => hcs hc) (fun h => absurd h (by decide)) hl2 x hx
    · simp only [splitScan, hc, if_false, Bool.false_eq_true] at hx
      exact ih false (c :: piece) (fun h => absurd h (by decide)) (fun _ => by simp) hl2 x hx

theorem jsTrim_ends (l : List Char) (h : jsTrim l ≠ []) :
    (∃ c cs, jsTrim l = c :: cs ∧ isJsSpace c = false) ∧
      ∀ c, (jsTrim l).getLast? = some c → isJsSpace c = false := by
  have hr : jsTrim l = (l.dropWhile isJsSpace).rdropWhile isJsSpace := rfl
  constructor
  · have hpre : jsTrim l <+: l.dropWhile isJsSpace := by
      rw [hr]
      exact List.rdropWhile_prefix _ _
    cases hj : jsTrim l with
    | nil => exact absurd hj h
    | cons c cs =>
      refine ⟨c, cs, rfl, ?_⟩
      rw [hj] at hpre
      obtain ⟨t, ht⟩ := hpre
      have hne : l.dropWhile isJsSpace ≠ [] := by
        rw [← ht]
        simp
      have hh := List.head_dropWhile_not isJsSpace l hne
      have : (l.dropWhile isJsSpace).head hne = c := by
        simp only [← ht]
        rfl
      rw [this] at hh
      exact hh
  · intro c hc
    rw [hr] at hc h
    have := List.rdropWhile_last_not isJsSpace _ h
    rw [List.getLast?_eq_getLast _ h] at hc
    simp only [Option.some.injEq] at hc
    rw [hc] at this
    simpa using this

theorem splitSpaces_jsTrim (l : List Char) (h : jsTrim l ≠ []) :
    splitSpaces (jsTrim l) = nonSpaceRuns l := by
  obtain ⟨⟨c, cs, hcs, hc⟩, hlast⟩ := jsTrim_ends l h
  have hne : ∀ x ∈ splitSpaces (jsTrim l), x ≠ [] := by
    rw [hcs] at hlast ⊢
    unfold splitSpaces
    simp only [splitScan, hc, Bool.false_eq_true, if_false]
    apply splitScan_pieces_nonempty cs false [c] (fun h => absurd h (by decide)) (fun _ => by simp)
    intro d hd
    apply hlast d
    cases cs with
    | nil => simp at hd
    | cons e es => simpa [List.getLast?_cons_cons] using hd
  rw [← nonSpaceRuns_jsTrim, ← filter_splitSpaces]
  symm
  rw [List.filter_eq_self]
  intro x hx
  have := hne x hx
  cases x with
  | nil => exact absurd rfl this
  | cons _ _ => rfl

theorem nonSpaceRuns_of_jsTrim_nil (l : List Char) (h : jsTrim l = []) : nonSpaceRuns l = [] := by
  rw [← nonSpaceRuns_jsTrim, h]
  rfl

theorem nonSpaceRuns_piece (l : List Char) :
    ∀ x ∈ nonSpaceRuns l, x ≠ [] ∧ ∀ c ∈ x, isJsSpace c = false := by
  have key : ∀ l : List Char, ∀ x ∈ l.splitOnP isJsSpace, ∀ c ∈ x, isJsSpace c = false := by
    intro l
    induction l with
    | nil => simp
    | cons a l ih =>
      intro x hx c hc
      rw [List.splitOnP_cons] at hx
      by_cases ha : isJsSpace a = true
      · rw [if_pos ha] at hx
        rcases List.mem_cons.mp hx with rfl | hx
        · simp at hc
        · exact ih x hx c hc
      · rw [if_neg ha] at hx
        cases hs : List.splitOnP isJsSpace l with
        | nil => exact absurd hs (List.splitOnP_ne_nil _ _)
        | cons y ys =>
          rw [hs, List.modifyHead_cons] at hx
          rcases List.mem_cons.mp hx with rfl | hx
          · rcases List.mem_cons.mp hc with rfl | hc
            · simpa using ha
            · exact ih y (by rw [hs]; simp) c hc
          · exact ih x (by rw [hs]; simp [hx]) c hc
  intro x hx
  unfold nonSpaceRuns at hx
  rw [List.mem_filter] at hx
  refine ⟨?_, key l x hx.1⟩
  intro hn
  rw [hn] at hx
  simp at hx

/-- C6: for every content `t` of the args field, in mode "dynamic" the args
are exactly the maximal runs of non-white-space characters of `t`, in order -
none empty, none with white space, and none at all when `t` is empty or white
space only; in mode "static" the args are the empty list; the request body is
the object with `args` when the list is non-empty and the empty object
otherwise, and `startAnalysis` sends its JSON text; for `t` = "--flag 1" in
dynamic mode the text sent is the object with args "--flag" and "1". -/
theorem analysisArgs_are_runs (t : String) :
    analysisArgs "dynamic" (some t) = (nonSpaceRuns t.data).map String.mk ∧
    (∀ a ∈ analysisArgs "dynamic" (some t), a ≠ "" ∧ ∀ c ∈ a.data, isJsSpace c = false) ∧
    ((∀ c ∈ t.data, isJsSpace c = true) → analysisArgs "dynamic" (some t) = []) ∧
    analysisArgs "static" (some t) = [] ∧
    (∀ type, requestBody (analysisArgs type (some t)) =
      if analysisArgs type (some t) = [] then .empty
      else .withArgs (analysisArgs type (some t))) ∧
    (∀ (p : Page) (type : String), p.currentFileHash.truthy = true → p.analysisArgs = some t →
      (selectAnalysisType p type).effects = p.effects ++
        [.showModal type,
         .analyze ("/analyze/" ++ type ++ "/" ++ p.currentFileHash.toStr)
           (stringifyBody (requestBody (analysisArgs type (some t))))]) ∧
    stringifyBody (requestBody (analysisArgs "dynamic" (some "--flag 1"))) =
      "\x7b\"args\":[\"--flag\",\"1\"]\x7d" := by
  have hdyn : analysisArgs "dynamic" (some t) = (nonSpaceRuns t.data).map String.mk := by
    unfold analysisArgs
    simp only [if_true]
    by_cases h : jsTrim t.data = []
    · simp [h, nonSpaceRuns_of_jsTrim_nil t.data h]
    · have he : (jsTrim t.data).isEmpty = false := by
        cases hj : jsTrim t.data with
        | nil => exact absurd hj h
        | cons _ _ => rfl
      simp only [he, Bool.not_false, if_true]
      rw [splitSpaces_jsTrim t.data h]
  refine ⟨hdyn, ?_, ?_, by simp [analysisArgs], ?_, ?_, by decide⟩
  · intro a ha
    rw [hdyn, List.mem_map] at ha
    obtain ⟨x, hx, rfl⟩ := ha
    obtain ⟨h1, h2⟩ := nonSpaceRuns_piece t.data x hx
    refine ⟨?_, h2⟩
    intro he
    apply h1
    have := congrArg String.data he
    simpa using this
  · intro hall
    have h : jsTrim t.data = [] := by
      have : t.data.dropWhile isJsSpace = [] := by
        rw [List.dropWhile_eq_nil_iff]
        exact hall
      unfold jsTrim
      rw [this]
      rfl
    rw [hdyn, nonSpaceRuns_of_jsTrim_nil t.data h]
    rfl
  · intro type
    unfold requestBody
    cases analysisArgs type (some t) with
    | nil => rfl
    | cons a as => simp
  · intro p type hh ha
    simp [selectAnalysisType, startAnalysis, hh, ha, showAnalyzingModal]

/-- C6, witness: on a page with the fingerprint "d41d" and the args field
" a  b ", choosing the dynamic analysis sends the args "a" and "b". -/
theorem analysisArgs_are_runs_witness :
    (selectAnalysisType
        { Page.load true with currentFileHash := .str "d41d", analysisArgs := some " a  b " }
        "dynamic").effects =
      [.showModal "dynamic",
       .analyze "/analyze/dynamic/d41d" "\x7b\"args\":[\"a\",\"b\"]\x7d"] :=
  ((analysisArgs_are_runs " a  b ").2.2.2.2.2.1
    { Page.load true with currentFileHash := .str "d41d", analysisArgs := some " a  b " }
    "dynamic" (by decide) rfl).trans (by decide)

/-! ## upload.js: the analysis request -/

theorem notifications_append (p : Page) (es : List Effect) :
    ({ p with effects := p.effects ++ es } : Page).notifications =
      p.notifications ++ es.filterMap (fun e => match e with
        | .notify n => some n
        | _ => none) := by
  simp [Page.notifications, List.filterMap_append]

theorem timers_append (p : Page) (es : List Effect) :
    ({ p with effects := p.effects ++ es } : Page).timers =
      p.timers ++ es.filterMap (fun e => match e with
        | .setTimer type => some type
        | _ => none) := by
  simp [Page.timers, List.filterMap_append]

theorem requests_append (p : Page) (es : List Effect) :
    ({ p with effects := p.effects ++ es } : Page).requests =
      p.requests ++ es.filterMap (fun e => match e with
        | .analyze url body => some (url, body)
        | _ => none) := by
  simp [Page.requests, List.filterMap_append]

theorem analysisDone_effects (p : Page) (type : String) (r : AnalysisResult) :
    (analysisDone p type r).effects = p.effects ++
      ([.hideModal (decide (p.modals > 0))] ++
        (if r = .nullBody then [.hideModal (decide (p.modals > 1))] else []) ++
        [.notify (outcomeOf r).note] ++
        (if outcomeOf r = .success then [.setTimer type] else [])) := by
  cases r with
  | networkError message =>
    by_cases h : p.modals > 0 <;>
      simp [analysisDone, hideAnalyzingModal, Page.notify, outcomeOf, AnalysisOutcome.note, h]
  | notJson message =>
    by_cases h : p.modals > 0 <;>
      simp [analysisDone, hideAnalyzingModal, Page.notify, outcomeOf, AnalysisOutcome.note, h]
  | nullBody =>
    by_cases h : p.modals > 0
    · by_cases h1 : p.modals > 1
      · have h2 : p.modals - 1 > 0 := by omega
        simp [analysisDone, hideAnalyzingModal, Page.notify, outcomeOf, AnalysisOutcome.note, h,
          h1, h2]
      · have h2 : ¬ (p.modals - 1 > 0) := by omega
        simp [analysisDone, hideAnalyzingModal, Page.notify, outcomeOf, AnalysisOutcome.note, h,
          h1, h2]
    · have h1 : ¬ (p.modals > 1) := by omega
      simp [analysisDone, hideAnalyzingModal, Page.notify, outcomeOf, AnalysisOutcome.note, h, h1]
  | body error status =>
    by_cases h : p.modals > 0 <;> by_cases he : error.truthy = true <;>
      by_cases h1 : status = .str "success" <;>
      by_cases h2 : status = .str "early_termination" <;>
      simp [analysisDone, hideAnalyzingModal, Page.notify, outcomeOf, AnalysisOutcome.note, h,
        he, h1, h2]

theorem analysisDone_modals (p : Page) (type : String) (r : AnalysisResult) :
    (analysisDone p type r).modals = (if r = .nullBody then p.modals - 2 else p.modals - 1) ∧
      (analysisDone p type r).inFlight = p.inFlight - 1 := by
  cases r with
  | networkError message =>
    by_cases h : p.modals > 0
    · simp [analysisDone, hideAnalyzingModal, Page.notify, h]
    · simp [analysisDone, hideAnalyzingModal, Page.notify, h]
      omega
  | notJson message =>
    by_cases h : p.modals > 0
    · simp [analysisDone, hideAnalyzingModal, Page.notify, h]
    · simp [analysisDone, hideAnalyzingModal, Page.notify, h]
      omega
  | nullBody =>
    by_cases h : p.modals > 0
    · by_cases h1 : p.modals > 1
      · have h2 : p.modals - 1 > 0 := by omega
        simp [analysisDone, hideAnalyzingModal, Page.notify, h, h2]
        omega
      · have h2 : ¬ (p.modals - 1 > 0) := by omega
        simp [analysisDone, hideAnalyzingModal, Page.notify, h, h2]
        omega
    · simp [analysisDone, hideAnalyzingModal, Page.notify, h]
      omega
  | body error status =>
    by_cases h : p.modals > 0 <;> by_cases he : error.truthy = true <;>
      by_cases h1 : status = .str "success" <;>
      by_cases h2 : status = .str "early_termination" <;>
      simp [analysisDone, hideAnalyzingModal, Page.notify, h, he, h1, h2] <;> omega

theorem uploadDone_accepted (p : Page) (error : JsVal) (fi : FileInfo)
    (he : error.truthy = false) :
    (uploadDone p (.body error (some fi))).currentFileHash = fi.md5 ∧
    (uploadDone p (.body error (some fi))).currentFileExtension = fi.extension ∧
    (uploadDone p (.body error (some fi))).modals = p.modals ∧
    (uploadDone p (.body error (some fi))).inFlight = p.inFlight ∧
    (uploadDone p (.body error (some fi))).analysisArgs = p.analysisArgs ∧
    (displayThrows p fi = false →
      (uploadDone p (.body error (some fi))).effects =
        p.effects ++ [.notify ⟨.str "File uploaded successfully!", "success"⟩] ∧
      (uploadDone p (.body error (some fi))).uploadAreaDisplay = "none" ∧
      (uploadDone p (.body error (some fi))).analysisAreaHidden = false) ∧
    (displayThrows p fi = true →
      (uploadDone p (.body error (some fi))).effects =
        p.effects ++ [.notify ⟨.str "File uploaded successfully!", "success"⟩,
          .notify ⟨.str ("Upload failed: " ++ upperCaseThrow fi.extension), "error"⟩] ∧
      (uploadDone p (.body error (some fi))).uploadAreaDisplay = p.uploadAreaDisplay ∧
      (uploadDone p (.body error (some fi))).analysisAreaHidden = p.analysisAreaHidden) := by
  cases hft : p.fileType <;> cases hext : fi.extension <;>
    simp [uploadDone, he, displayFileInfo, updateProgress, Page.notify, uploadFailed, hft, hext,
      displayThrows, JsVal.isStr, upperCaseThrow]

theorem uploadDone_rejected (p : Page) (r : UploadResult)
    (hr : ∀ error fi, r = .body error (some fi) → error.truthy = true) :
    (uploadDone p r).currentFileHash = p.currentFileHash ∧
    (uploadDone p r).currentFileExtension = p.currentFileExtension ∧
    (uploadDone p r).modals = p.modals ∧
    (uploadDone p r).inFlight = p.inFlight ∧
    (uploadDone p r).analysisArgs = p.analysisArgs ∧
    (uploadDone p r).uploadAreaDisplay = p.uploadAreaDisplay ∧
    (uploadDone p r).analysisAreaHidden = p.analysisAreaHidden ∧
    ∃ ns : List Notification, (uploadDone p r).effects = p.effects ++ ns.map Effect.notify ∧
      ∃ n ∈ ns, n.type = "error" := by
  cases r with
  | networkError message =>
    simp only [uploadDone, uploadFailed, Page.notify, true_and]
    exact ⟨[_], rfl, _, List.mem_singleton.mpr rfl, rfl⟩
  | notJson message =>
    simp only [uploadDone, uploadFailed, Page.notify, true_and]
    exact ⟨[_], rfl, _, List.mem_singleton.mpr rfl, rfl⟩
  | nullBody =>
    simp only [uploadDone, uploadFailed, Page.notify, true_and]
    exact ⟨[_], rfl, _, List.mem_singleton.mpr rfl, rfl⟩
  | body error file_info =>
    by_cases he : error.truthy = true
    · simp only [uploadDone, he, if_true, Page.notify, true_and]
      exact ⟨[_], rfl, _, List.mem_singleton.mpr rfl, rfl⟩
    · cases file_info with
      | some fi => exact absurd (hr error fi rfl) he
      | none =>
        simp only [uploadDone, he, Bool.false_eq_true, if_false, uploadFailed, Page.notify,
          true_and, List.append_assoc]
        exact ⟨[_, ⟨_, "error"⟩], rfl, _, List.mem_cons_of_mem _ (List.mem_singleton.mpr rfl), rfl⟩

theorem uploadDone_counts (p : Page) (r : UploadResult) :
    (uploadDone p r).modals = p.modals ∧ (uploadDone p r).inFlight = p.inFlight ∧
      (uploadDone p r).requests = p.requests := by
  by_cases h : ∃ error fi, r = .body error (some fi) ∧ error.truthy = false
  · obtain ⟨error, fi, rfl, he⟩ := h
    obtain ⟨_, _, h3, h4, _, h6, h7⟩ := uploadDone_accepted p error fi he
    refine ⟨h3, h4, ?_⟩
    unfold Page.requests
    cases ht : displayThrows p fi
    · rw [(h6 ht).1]
      simp [List.filterMap_append]
    · rw [(h7 ht).1]
      simp [List.filterMap_append]
  · have hr : ∀ error fi, r = .body error (some fi) → error.truthy = true := by
      intro error fi hr
      by_contra hc
      exact h ⟨error, fi, hr, by simpa using hc⟩
    obtain ⟨_, _, h3, h4, _, _, _, ns, hns, _⟩ := uploadDone_rejected p r hr
    refine ⟨h3, h4, ?_⟩
    unfold Page.requests
    rw [hns, List.filterMap_append]
    simp [List.filterMap_map, Function.comp_def]

/-- C3 (as amended): the handlers of `startAnalysis` report exactly one
outcome for every way the request can end, through one notification: Success
when the body has a falsy `error` (absent, `null`, empty) and `status`
"success", EarlyTermination when it has a falsy `error` and `status`
"early_termination", Failure in every other case - a truthy `error`, any other
`status`, a rejected request, a body that is not JSON or is `null`; and the
redirect timer is set if and only if the outcome is Success. -/
theorem analysis_outcome_total (p : Page) (type : String) (r : AnalysisResult) :
    (analysisDone p type r).notifications = p.notifications ++ [(outcomeOf r).note] ∧
    (analysisDone p type r).timers =
      p.timers ++ (if outcomeOf r = .success then [type] else []) ∧
    (outcomeOf r = .success ↔
      ∃ error, r = .body error (.str "success") ∧ error.truthy = false) ∧
    ((∃ reason, outcomeOf r = .earlyTermination reason) ↔
      ∃ error, r = .body error (.str "early_termination") ∧ error.truthy = false) ∧
    (∀ error status, r = .body error status → error.truthy = true →
      outcomeOf r = .failure error) ∧
    (∀ error status, r = .body error status → status ≠ .str "success" →
      status ≠ .str "early_termination" → ∃ message, outcomeOf r = .failure message) ∧
    ((r = .nullBody ∨ (∃ message, r = .networkError message) ∨ ∃ message, r = .notJson message) →
      ∃ message, outcomeOf r = .failure (.str ("Analysis failed: " ++ message))) := by
  refine ⟨?_, ?_, ?_, ?_, ?_, ?_, ?_⟩
  · have h := analysisDone_effects p type r
    unfold Page.notifications
    rw [h, List.filterMap_append]
    congr 1
    split_ifs <;> rfl
  · have h := analysisDone_effects p type r
    unfold Page.timers
    rw [h, List.filterMap_append]
    congr 1
    split_ifs <;> rfl
  · cases r with
    | body error status =>
      by_cases he : error.truthy = true <;> by_cases h1 : status = .str "success" <;>
        by_cases h2 : status = .str "early_termination" <;> simp [outcomeOf, he, h1, h2]
    | _ => simp [outcomeOf]
  · cases r with
    | body error status =>
      by_cases he : error.truthy = true <;> by_cases h1 : status = .str "success" <;>
        by_cases h2 : status = .str "early_termination" <;> simp_all [outcomeOf]
    | _ => simp [outcomeOf]
  · intro error status hr he
    subst hr
    simp [outcomeOf, he]
  · intro error status hr h1 h2
    subst hr
    by_cases he : error.truthy = true <;> simp [outcomeOf, he, h1, h2]
  · rintro (hr | ⟨m, hr⟩ | ⟨m, hr⟩) <;> subst hr <;> exact ⟨_, rfl⟩

/-- C3, counterexample: a response that carries an `error` field holding
`null` (or the empty string) together with `status` "success" is reported as
Success, and the redirect is scheduled. -/
theorem falsy_error_field_is_success :
    outcomeOf (.body .null (.str "success")) = .success ∧
      (analysisDone { Page.load true with currentFileHash := .str "d41d", modals := 1, inFlight := 1 }
        "static" (.body (.str "") (.str "success"))).timers = ["static"] ∧
      (analysisDone { Page.load true with currentFileHash := .str "d41d", modals := 1, inFlight := 1 }
        "static" (.body .null (.str "success"))).notifications =
        [⟨.str "Analysis completed successfully!", "success"⟩] := by
  decide

/-- C4, the code at the failing input: a response with `status`
"early_termination" that carries its reason in `error` is reported by the
plain error notification, without 'Process terminated early: '; the
early-termination notification is only reached with a falsy `error`, and then
reads 'Process terminated early: undefined'. -/
theorem early_termination_reason_lost :
    (analysisDone { Page.load true with currentFileHash := .str "d41d", modals := 1, inFlight := 1 }
        "dynamic" (.body (.str "timeout") (.str "early_termination"))).notifications =
        [⟨.str "timeout", "error"⟩] ∧
      (analysisDone { Page.load true with currentFileHash := .str "d41d", modals := 1, inFlight := 1 }
        "dynamic" (.body .undefined (.str "early_termination"))).notifications =
        [⟨.str "Process terminated early: undefined", "error"⟩] := by
  decide

/-- C5 (as amended): a call of `startAnalysis` without a fingerprint adds no
modal and no request, a call with one adds one modal and one request, and
every completion hides a modal before it shows its notification; if the
modals were as many as the requests on their way, they are so again after a
call and after a completion, for a `null` body provided that request was the
only one on its way. -/
theorem modal_tracks_requests (p : Page) (e : Event) (hinv : p.modals = p.inFlight)
    (hnull : ∀ type, e = .analysisDone type .nullBody → p.inFlight ≤ 1) :
    (step p e).modals = (step p e).inFlight ∧
    (∀ type args, e = .startAnalysis type args → p.currentFileHash.truthy = false →
      (step p e).modals = p.modals ∧ (step p e).inFlight = p.inFlight ∧
        (step p e).requests = p.requests) ∧
    (∀ type args, e = .startAnalysis type args → p.currentFileHash.truthy = true →
      (step p e).modals = p.modals + 1 ∧ (step p e).inFlight = p.inFlight + 1) ∧
    (∀ type r, e = .analysisDone type r → 0 < p.inFlight →
      (step p e).inFlight = p.inFlight - 1 ∧
      ∃ rest, (step p e).effects = p.effects ++ .hideModal true :: rest ∧
        .notify (outcomeOf r).note ∈ rest) := by
  refine ⟨?_, ?_, ?_, ?_⟩
  · cases e with
    | handleFile => simpa [step, handleFile] using hinv
    | uploadDone r =>
      have := uploadDone_counts p r
      simp only [step]
      rw [this.1, this.2.1]
      exact hinv
    | selectAnalysisType type =>
      by_cases h : p.currentFileHash.truthy = true <;>
        simp [step, selectAnalysisType, startAnalysis, showAnalyzingModal, Page.notify, h, hinv]
    | startAnalysis type args =>
      by_cases h : p.currentFileHash.truthy = true <;>
        simp [step, startAnalysis, showAnalyzingModal, Page.notify, h, hinv]
    | analysisDone type r =>
      simp only [step]
      by_cases h : p.inFlight > 0
      · rw [if_pos h]
        obtain ⟨h1, h2⟩ := analysisDone_modals p type r
        rw [h1, h2]
        by_cases hn : r = .nullBody
        · subst hn
          have := hnull type rfl
          simp only [if_true]
          omega
        · rw [if_neg hn]
          omega
      · rw [if_neg h]
        exact hinv
    | redirect type => simpa [step, redirect] using hinv
  · intro type args he hh
    subst he
    simp [step, startAnalysis, Page.notify, hh, requests_append]
  · intro type args he hh
    subst he
    simp [step, startAnalysis, showAnalyzingModal, hh]
  · intro type r he h0
    subst he
    simp only [step, if_pos h0]
    refine ⟨(analysisDone_modals p type r).2, ?_⟩
    have hm : decide (p.modals > 0) = true := by
      rw [hinv]
      simpa using h0
    rw [analysisDone_effects, hm]
    exact ⟨_, rfl, by simp⟩

/-- C5, witness: on a page with one request on its way and one modal, a
`null` body leaves no modal and no request. -/
theorem modal_tracks_requests_witness :
    (step { Page.load true with currentFileHash := .str "d41d", modals := 1, inFlight := 1 }
        (.analysisDone "static" .nullBody)).modals =
      (step { Page.load true with currentFileHash := .str "d41d", modals := 1, inFlight := 1 }
        (.analysisDone "static" .nullBody)).inFlight :=
  (modal_tracks_requests
    { Page.load true with currentFileHash := .str "d41d", modals := 1, inFlight := 1 }
    (.analysisDone "static" .nullBody) rfl (fun _ _ => by decide)).1

/-- C5, counterexample: after an upload and two analysis calls, a `null` body
for one of the two requests removes both modals: none is left while one
request is still on its way. -/
theorem null_body_hides_twice :
    (run (Page.load true)
        [.uploadDone uploadOk, .startAnalysis "static" [], .startAnalysis "static" [],
         .analysisDone "static" .nullBody]).modals = 0 ∧
      (run (Page.load true)
        [.uploadDone uploadOk, .startAnalysis "static" [], .startAnalysis "static" [],
         .analysisDone "static" .nullBody]).inFlight = 1 := by
  decide

/-! ## upload.js: the upload and the fingerprint -/

theorem displayThrows_eq_false (p : Page) (fi : FileInfo) :
    displayThrows p fi = false ↔ p.fileType = none ∨ ∃ ext, fi.extension = .str ext := by
  cases hft : p.fileType <;> cases hext : fi.extension <;>
    simp [displayThrows, JsVal.isStr, hft, hext]

theorem step_hash (p : Page) (e : Event) :
    (step p e).currentFileHash = p.currentFileHash ∨
      ∃ error fi, e = .uploadDone (.body error (some fi)) ∧ error.truthy = false := by
  cases e with
  | handleFile => exact Or.inl rfl
  | uploadDone r =>
    by_cases h : ∃ error fi, r = .body error (some fi) ∧ error.truthy = false
    · obtain ⟨error, fi, rfl, he⟩ := h
      exact Or.inr ⟨error, fi, rfl, he⟩
    · left
      apply (uploadDone_rejected p r _).1
      intro error fi hr
      by_contra hc
      exact h ⟨error, fi, hr, by simpa using hc⟩
  | selectAnalysisType type =>
    left
    by_cases h : p.currentFileHash.truthy = true <;>
      simp [step, selectAnalysisType, startAnalysis, showAnalyzingModal, Page.notify, h]
  | startAnalysis type args =>
    left
    by_cases h : p.currentFileHash.truthy = true <;>
      simp [step, startAnalysis, showAnalyzingModal, Page.notify, h]
  | analysisDone type r =>
    left
    simp only [step]
    split
    · cases r with
      | body error status =>
        by_cases h : p.modals > 0 <;> by_cases he : error.truthy = true <;>
          by_cases h1 : status = .str "success" <;>
          by_cases h2 : status = .str "early_termination" <;>
          simp [analysisDone, hideAnalyzingModal, Page.notify, h, he, h1, h2]
      | nullBody =>
        by_cases h : p.modals > 0 <;> by_cases h1 : p.modals - 1 > 0 <;>
          simp [analysisDone, hideAnalyzingModal, Page.notify, h, h1]
      | _ => by_cases h : p.modals > 0 <;> simp [analysisDone, hideAnalyzingModal, Page.notify, h]
    · rfl
  | redirect type => exact Or.inl rfl

theorem step_requests (p : Page) (e : Event) :
    (step p e).requests = p.requests ∨ p.currentFileHash.truthy = true := by
  cases e with
  | handleFile =>
    left
    simp [step, handleFile, requests_append]
  | uploadDone r => exact Or.inl (uploadDone_counts p r).2.2
  | selectAnalysisType type =>
    by_cases h : p.currentFileHash.truthy = true
    · exact Or.inr h
    · left
      simp [step, selectAnalysisType, startAnalysis, Page.notify, h, requests_append]
  | startAnalysis type args =>
    by_cases h : p.currentFileHash.truthy = true
    · exact Or.inr h
    · left
      simp [step, startAnalysis, Page.notify, h, requests_append]
  | analysisDone type r =>
    left
    simp only [step]
    split
    · unfold Page.requests
      rw [analysisDone_effects, List.filterMap_append]
      split_ifs <;> simp
    · rfl
  | redirect type =>
    left
    simp [step, redirect, requests_append]

theorem run_concat (p : Page) (evs : List Event) (e : Event) :
    run p (evs ++ [e]) = step (run p evs) e := by
  simp [run, List.foldl_append]

theorem run_needs_accepted_upload (full : Bool) (evs : List Event) :
    ((run (Page.load full) evs).currentFileHash.truthy = true ∨
        (run (Page.load full) evs).requests ≠ []) →
      ∃ error fi, Event.uploadDone (.body error (some fi)) ∈ evs ∧ error.truthy = false := by
  induction evs using List.reverseRecOn with
  | nil =>
    intro h
    rcases h with h | h
    · exact absurd h (by simp [run, Page.load, JsVal.truthy])
    · exact absurd rfl h
  | append_singleton evs e ih =>
    intro h
    rw [run_concat] at h
    have lift : (∃ error fi, Event.uploadDone (.body error (some fi)) ∈ evs ∧
        error.truthy = false) →
        ∃ error fi, Event.uploadDone (.body error (some fi)) ∈ evs ++ [e] ∧
          error.truthy = false := by
      rintro ⟨error, fi, hm, he⟩
      exact ⟨error, fi, List.mem_append_left _ hm, he⟩
    have hash_case : (step (run (Page.load full) evs) e).currentFileHash.truthy = true →
        ∃ error fi, Event.uploadDone (.body error (some fi)) ∈ evs ++ [e] ∧
          error.truthy = false := by
      intro hh
      rcases step_hash (run (Page.load full) evs) e with hs | ⟨error, fi, he, het⟩
      · rw [hs] at hh
        exact lift (ih (Or.inl hh))
      · exact ⟨error, fi, by simp [he], het⟩
    rcases h with h | h
    · exact hash_case h
    · rcases step_requests (run (Page.load full) evs) e with hs | hs
      · rw [hs] at h
        exact lift (ih (Or.inr h))
      · exact lift (ih (Or.inl hs))

/-- C7 (as amended): for every upload response with a falsy `error` and a
`file_info` object whose `extension` is a string (or on a page without the
`fileType` element), the handler sets the fingerprint to `file_info.md5` and
the extension to `file_info.extension`, whatever they were, hides the upload
view, shows the analysis view and shows the success notification only; for
every response with a truthy `error` it shows that error and changes neither
the fingerprint, the extension nor the views. -/
theorem upload_sets_fingerprint (p : Page) (error : JsVal) :
    (error.truthy = false → ∀ fi : FileInfo,
      (p.fileType = none ∨ ∃ ext, fi.extension = .str ext) →
      (uploadDone p (.body error (some fi))).currentFileHash = fi.md5 ∧
      (uploadDone p (.body error (some fi))).currentFileExtension = fi.extension ∧
      (uploadDone p (.body error (some fi))).uploadAreaDisplay = "none" ∧
      (uploadDone p (.body error (some fi))).analysisAreaHidden = false ∧
      (uploadDone p (.body error (some fi))).notifications =
        p.notifications ++ [⟨.str "File uploaded successfully!", "success"⟩]) ∧
    (error.truthy = true → ∀ file_info : Option FileInfo,
      (uploadDone p (.body error file_info)).notifications =
        p.notifications ++ [⟨error, "error"⟩] ∧
      (uploadDone p (.body error file_info)).currentFileHash = p.currentFileHash ∧
      (uploadDone p (.body error file_info)).currentFileExtension = p.currentFileExtension ∧
      (uploadDone p (.body error file_info)).uploadAreaDisplay = p.uploadAreaDisplay ∧
      (uploadDone p (.body error file_info)).analysisAreaHidden = p.analysisAreaHidden) := by
  constructor
  · intro he fi hfi
    have ht := (displayThrows_eq_false p fi).mpr hfi
    obtain ⟨h1, h2, _, _, _, h6, _⟩ := uploadDone_accepted p error fi he
    obtain ⟨h7, h8, h9⟩ := h6 ht
    refine ⟨h1, h2, h8, h9, ?_⟩
    unfold Page.notifications
    rw [h7]
    simp [List.filterMap_append]
  · intro he file_info
    simp [uploadDone, he, Page.notify, Page.notifications, List.filterMap_append]

/-- C7, witness: the upload scenario of the specification on the full page. -/
theorem upload_sets_fingerprint_witness :
    (uploadDone (Page.load true) uploadOk).currentFileHash = .str "d41d" ∧
      (uploadDone (Page.load true) uploadOk).currentFileExtension = .str "exe" ∧
      (uploadDone (Page.load true) uploadOk).uploadAreaDisplay = "none" ∧
      (uploadDone (Page.load true) uploadOk).analysisAreaHidden = false ∧
      (uploadDone (Page.load true) uploadOk).notifications =
        (Page.load true).notifications ++ [⟨.str "File uploaded successfully!", "success"⟩] :=
  (upload_sets_fingerprint (Page.load true) .undefined).1 rfl
    ⟨.str "a.exe", 1024, .str "exe", .str "d41d", .str "e3b0"⟩ (Or.inr ⟨"exe", rfl⟩)

/-- C7, counterexample: a response without an `error` field whose `file_info`
object has no `extension` stores the fingerprint and shows the success
notification, but then shows 'Upload failed: ...' too and leaves the upload
view in place and the analysis view hidden. -/
theorem upload_without_extension_fails_late :
    (uploadDone (Page.load true) uploadNoExtension).currentFileHash = .str "d41d" ∧
      (uploadDone (Page.load true) uploadNoExtension).notifications =
        [⟨.str "File uploaded successfully!", "success"⟩,
         ⟨.str ("Upload failed: " ++ readMessage "undefined" "toUpperCase"), "error"⟩] ∧
      (uploadDone (Page.load true) uploadNoExtension).uploadAreaDisplay = "" ∧
      (uploadDone (Page.load true) uploadNoExtension).analysisAreaHidden = true := by
  decide

/-- C8 (as amended): the fingerprint is changed only by an upload completion
whose response has a falsy `error` and a `file_info` object - the success
notification is shown for it, and when `file_info.extension` is a string (or
the page has no `fileType` element) nothing else is shown and the view is
switched to the analysis; in every state reached from page load an /analyze
request has been sent only if such a completion is among the events; and
without a fingerprint `startAnalysis` shows 'No file uploaded', adds no modal
and sends no request. -/
theorem fingerprint_from_accepted_upload (full : Bool) (evs : List Event) :
    (∀ (p : Page) (e : Event), (step p e).currentFileHash ≠ p.currentFileHash →
      ∃ error fi, e = .uploadDone (.body error (some fi)) ∧ error.truthy = false ∧
        (step p e).currentFileHash = fi.md5 ∧
        Effect.notify ⟨.str "File uploaded successfully!", "success"⟩ ∈ (step p e).effects ∧
        ((p.fileType = none ∨ ∃ ext, fi.extension = .str ext) →
          (step p e).effects =
            p.effects ++ [.notify ⟨.str "File uploaded successfully!", "success"⟩] ∧
          (step p e).uploadAreaDisplay = "none" ∧ (step p e).analysisAreaHidden = false)) ∧
    ((run (Page.load full) evs).requests ≠ [] →
      ∃ error fi, Event.uploadDone (.body error (some fi)) ∈ evs ∧ error.truthy = false) ∧
    (∀ (p : Page) (type : String) (args : List String), p.currentFileHash.truthy = false →
      startAnalysis p type args = p.notify (.str "No file uploaded") "error" ∧
      (startAnalysis p type args).modals = p.modals ∧
      (startAnalysis p type args).requests = p.requests) := by
  refine ⟨?_, fun h => run_needs_accepted_upload full evs (Or.inr h), ?_⟩
  · intro p e hne
    rcases step_hash p e with hs | ⟨error, fi, he, het⟩
    · exact absurd hs hne
    · subst he
      obtain ⟨h1, _, _, _, _, h6, h7⟩ := uploadDone_accepted p error fi het
      refine ⟨error, fi, rfl, het, h1, ?_, ?_⟩
      · simp only [step]
        cases ht : displayThrows p fi
        · rw [(h6 ht).1]
          simp
        · rw [(h7 ht).1]
          simp
      · intro hfi
        exact h6 ((displayThrows_eq_false p fi).mpr hfi)
  · intro p type args hh
    simp [startAnalysis, hh, Page.notify, requests_append]

/-- C8, witness: an accepted upload followed by an analysis call; the request
sent is backed by the upload completion among the events. -/
theorem fingerprint_from_accepted_upload_witness :
    ∃ error fi, Event.uploadDone (.body error (some fi)) ∈
        [Event.uploadDone uploadOk, Event.startAnalysis "static" []] ∧ error.truthy = false :=
  (fingerprint_from_accepted_upload true
    [.uploadDone uploadOk, .startAnalysis "static" []]).2.1 (by decide)

/-- C8, counterexample: an upload completion that ends in the 'Upload failed'
notification, with the upload view still shown, has changed the fingerprint,
and the analysis call after it sends a request. -/
theorem failed_upload_sets_fingerprint :
    (uploadDone (Page.load true) uploadNoExtension).currentFileHash ≠
        (Page.load true).currentFileHash ∧
      Notification.mk (.str ("Upload failed: " ++ readMessage "undefined" "toUpperCase")) "error" ∈
        (uploadDone (Page.load true) uploadNoExtension).notifications ∧
      (uploadDone (Page.load true) uploadNoExtension).analysisAreaHidden = true ∧
      (run (Page.load true)
        [.uploadDone uploadNoExtension, .startAnalysis "static" []]).requests =
        [("/analyze/static/d41d", "\x7b\x7d")] := by
  decide

end SecureAgentBox
